import Mathlib

/-!
Shallow embedding of the `bleak` GATT characteristic decode engine
(`src/bleak/formatter.py` and `src/bleak/utils.py`), together with
theorems settling the specification claims about it.

Conventions of the embedding:
* Python byte strings are `List Nat`, each element a byte value below 256.
* Python exceptions are the constructors of `PyErr`; fallible code
  returns `Except PyErr _`.
* Python's heterogeneous values (ints, floats, strings, bools, dicts)
  are the constructors of `PyVal`.  Python floats are modelled as exact
  rationals: every arithmetic step the claims exercise is exact in both
  semantics.
* Python dicts keyed by strings are ordered association lists
  (`List (String × α)`); assignment to an existing key keeps its
  position (`dictUpdate`), matching CPython insertion-order semantics.
-/

namespace Bleak

/-- Python exception kinds raised by the modelled code. -/
inductive PyErr where
  | typeError : PyErr
  | keyError : PyErr
  | attributeError : PyErr
  | valueError : PyErr
  | indexError : PyErr
  | overflowError : PyErr
  | structError : PyErr
  | assertionError : String → PyErr
  | fileNotFoundError : PyErr
  | unicodeDecodeError : PyErr
  deriving DecidableEq, Repr

/-- Python runtime values, as far as the decode engine produces them. -/
inductive PyVal where
  | int : Int → PyVal
  | rat : ℚ → PyVal
  | str : String → PyVal
  | bool : Bool → PyVal
  | dict : List (String × PyVal) → PyVal
  | list : List PyVal → PyVal
  | inf : Bool → PyVal
  | nan : PyVal
  | none : PyVal
  deriving Repr

/-- First-match lookup in a string-keyed association list (Python `d[k]`
reads; keys are unique in the dicts the engine builds). -/
def lookupStr {α : Type} (l : List (String × α)) (k : String) : Option α :=
  (l.find? (fun p => p.1 == k)).map (·.2)

/-- Lookup in an integer-keyed association list. -/
def lookupInt {α : Type} (l : List (Int × α)) (k : Int) : Option α :=
  (l.find? (fun p => p.1 == k)).map (·.2)

/-- Python dict assignment `d[k] = v`: overwrites in place if the key is
present (keeping its position), else appends. -/
def dictUpdate {α : Type} (l : List (String × α)) (k : String) (v : α) :
    List (String × α) :=
  if (l.find? (fun p => p.1 == k)).isSome then
    l.map (fun p => if p.1 == k then (k, v) else p)
  else l ++ [(k, v)]

/-! ### The `struct` module (native mode, x86-64)

The source builds format strings without a byte-order prefix, so CPython
uses native mode: little-endian values with natural alignment padding
between items.  Only the codes reachable from `DATA_FMT` are modelled;
any other character raises `struct.error`, exactly as CPython does for
the `X` and `utf8` pseudo-codes the table also contains. -/

/-- Size and alignment of a native-mode struct code. -/
def codeSpec : Char → Option (Nat × Nat)
  | 'b' => some (1, 1)
  | 'B' => some (1, 1)
  | '?' => some (1, 1)
  | 'h' => some (2, 2)
  | 'H' => some (2, 2)
  | 'i' => some (4, 4)
  | 'I' => some (4, 4)
  | 'q' => some (8, 8)
  | 'Q' => some (8, 8)
  | 'f' => some (4, 4)
  | 'd' => some (8, 8)
  | _ => Option.none

/-- Expand a struct format character list, resolving decimal repeat
counts (`"2Q"` becomes `['Q','Q']`); unknown codes raise
`struct.error`. -/
def fmtCodes : List Char → Option Nat → Except PyErr (List Char)
  | [], Option.none => .ok []
  | [], some _ => .error .structError
  | c :: rest, pending =>
    if c.isDigit then
      fmtCodes rest (some ((pending.getD 0) * 10 + (c.toNat - 48)))
    else
      match codeSpec c with
      | some _ => do
        let tl ← fmtCodes rest Option.none
        .ok (List.replicate (pending.getD 1) c ++ tl)
      | Option.none => .error .structError

/-- Round `off` up to a multiple of the alignment `a`. -/
def alignUp (off a : Nat) : Nat := ((off + a - 1) / a) * a

/-- Total native-mode size of an expanded code list. -/
def codesSize (codes : List Char) : Nat :=
  codes.foldl
    (fun off c =>
      match codeSpec c with
      | some (sz, al) => alignUp off al + sz
      | Option.none => off)
    0

/-- `struct.calcsize` for the modelled codes. -/
def structCalcsize (fmt : String) : Except PyErr Nat := do
  let codes ← fmtCodes fmt.toList Option.none
  .ok (codesSize codes)

/-- Little-endian value of a byte list. -/
def decodeLE : List Nat → Nat
  | [] => 0
  | b :: rest => b + 256 * decodeLE rest

/-- Reinterpret an unsigned `len`-byte value as two's-complement. -/
def toSigned (len : Nat) (n : Nat) : Int :=
  if n < 2 ^ (8 * len - 1) then (n : Int) else (n : Int) - 2 ^ (8 * len)

/-- IEEE-754 binary interpretation of an unsigned bit pattern with
`eBits` exponent bits and `mBits` mantissa bits (used for the struct
codes `f` and `d`; no claim exercises these, they are modelled for
completeness of the composite unpack). -/
def ieeeDecode (eBits mBits : Nat) (bits : Nat) : PyVal :=
  let sign := bits >>> (eBits + mBits)
  let e := (bits >>> mBits) % 2 ^ eBits
  let m := bits % 2 ^ mBits
  if e = 2 ^ eBits - 1 then
    if m = 0 then .inf (sign = 1) else .nan
  else
    let bias : Int := 2 ^ (eBits - 1) - 1
    let q : ℚ :=
      if e = 0 then (m : ℚ) * (2 : ℚ) ^ (1 - bias - (mBits : Int))
      else ((2 ^ mBits + m : Nat) : ℚ) * (2 : ℚ) ^ ((e : Int) - bias - (mBits : Int))
    .rat (if sign = 1 then -q else q)

/-- Decode the bytes of one struct code. -/
def unpackCodeVal (c : Char) (bs : List Nat) : PyVal :=
  match c with
  | 'b' => .int (toSigned 1 (decodeLE bs))
  | 'h' => .int (toSigned 2 (decodeLE bs))
  | 'i' => .int (toSigned 4 (decodeLE bs))
  | 'q' => .int (toSigned 8 (decodeLE bs))
  | 'B' => .int (decodeLE bs)
  | 'H' => .int (decodeLE bs)
  | 'I' => .int (decodeLE bs)
  | 'Q' => .int (decodeLE bs)
  | '?' => .bool (decodeLE bs != 0)
  | 'f' => ieeeDecode 8 23 (decodeLE bs)
  | 'd' => ieeeDecode 11 52 (decodeLE bs)
  | _ => .none

/-- Walk an expanded code list over the buffer, honouring alignment. -/
def unpackCodes (codes : List Char) (bb : List Nat) (off : Nat) : List PyVal :=
  match codes with
  | [] => []
  | c :: rest =>
    match codeSpec c with
    | some (sz, al) =>
      let start := alignUp off al
      unpackCodeVal c ((bb.drop start).take sz) :: unpackCodes rest bb (start + sz)
    | Option.none => unpackCodes rest bb off

/-- `struct.unpack(fmt, bb)`: the buffer length must equal the computed
size exactly. -/
def structUnpack (fmt : String) (bb : List Nat) : Except PyErr (List PyVal) := do
  let codes ← fmtCodes fmt.toList Option.none
  if bb.length = codesSize codes then .ok (unpackCodes codes bb 0)
  else .error .structError

/-! ### `formatter.py` -/

/-- `special_values` of `decode_FLOAT_ieee11073` (source lines 39-41);
the label strings are exactly the source's, including the en dash in
the negative-infinity label. -/
def special_values_FLOAT : List (Int × String) :=
  [(2 ^ 23 - 2, "+INFINITY"), (2 ^ 23 - 1, "NaN"), (-2 ^ 23, "NRes"),
   (-(2 ^ 23 - 1), "Reserved for future use"), (-(2 ^ 23 - 2), "–INFINITY")]

/-- `special_values` of `decode_SFLOAT_ieee11073` (source lines 117-118). -/
def special_values_SFLOAT : List (Int × String) :=
  [(2 ^ 11 - 2, "+INFINITY"), (2 ^ 11 - 1, "NaN"), (-2 ^ 11, "NRes"),
   (-(2 ^ 11 - 1), "Reserved for future use"), (-(2 ^ 11 - 2), "–INFINITY")]

/-- `decode_FLOAT_ieee11073(value)`: a 4-byte value; bytes 0-2 are a
24-bit little-endian mantissa sign-extended through the pad byte chosen
by the sign of byte 2, byte 3 the signed exponent.  `struct.unpack('4b',
value)` requires exactly 4 bytes. -/
def decode_FLOAT_ieee11073 (value : List Nat) : Except PyErr PyVal :=
  match value with
  | [b0, b1, b2, b3] =>
    let sign := toSigned 1 b2
    let exponent := toSigned 1 b3
    let _mantissa_bytes := [b0, b1, b2, if 0 ≤ sign then 0 else 255]
    let mantissa := toSigned 4 (decodeLE _mantissa_bytes)
    if exponent = 0 then
      match lookupInt special_values_FLOAT mantissa with
      | some s => .ok (.str s)
      | Option.none => .ok (.rat ((mantissa : ℚ) * (10 : ℚ) ^ exponent))
    else .ok (.rat ((mantissa : ℚ) * (10 : ℚ) ^ exponent))
  | _ => .error .structError

/-- `twos_comp(val, bits)` (source lines 65-72): conditional sign fold
followed by masking back to `bits` bits.  `1 << k` is written `2 ^ k`. -/
def twos_comp (val : Int) (bits : Nat) : Int :=
  let v := if Int.land val (2 ^ (bits - 1)) ≠ 0 then val - 2 ^ bits else val
  Int.land v (2 ^ bits - 1)

/-- `twos_comp_dec(val, bits)` (source lines 93-100): conditional sign
fold without the final mask. -/
def twos_comp_dec (val : Int) (bits : Nat) : Int :=
  if Int.land val (2 ^ (bits - 1)) ≠ 0 then val - 2 ^ bits else val

/-- Python `int(q)`: truncation toward zero. -/
def truncInt (q : ℚ) : Int := if 0 ≤ q then ⌊q⌋ else ⌈q⌉

/-- `int.to_bytes(len, 'little', signed=True)`: `OverflowError` outside
the signed range, else the two's-complement little-endian bytes. -/
def int_to_bytes_signed (n : Int) (len : Nat) : Except PyErr (List Nat) :=
  if n < -(2 : Int) ^ (8 * len - 1) ∨ (2 : Int) ^ (8 * len - 1) ≤ n then
    .error .overflowError
  else
    .ok ((List.range len).map (fun i => ((n % ((2 : Int) ^ (8 * len))).toNat / 256 ^ i) % 256))

/-- `encode_SFLOAT_ieee11073(value, precision)` (source lines 75-90):
mantissa `int(value * 10 ** precision)`; `assert val < 2**11` (only the
positive side is checked); the 16-bit packing `(precision << 12) +
twos_comp(val, 12)` is serialised as 2 signed little-endian bytes. -/
def encode_SFLOAT_ieee11073 (value : ℚ) (precision : Int) : Except PyErr (List Nat) :=
  let val := truncInt (value * (10 : ℚ) ^ precision)
  if val < 2 ^ 11 then
    int_to_bytes_signed (precision * 2 ^ 12 + twos_comp val 12) 2
  else .error (.assertionError "Mantissa too big")

/-- `decode_SFLOAT_ieee11073(value)` (source lines 103-135): reads
`value[1]`, `value[0]` (at least two bytes or `IndexError`); the
bitmask built by `eval` is the constant `0x0FFF`; the exponent is the
raw high nibble `dec >> 12` (no two's-complement fold), and the
non-sentinel result is `mantissa / (10 ** exponent)`. -/
def decode_SFLOAT_ieee11073 (value : List Nat) : Except PyErr PyVal :=
  match value with
  | b0 :: b1 :: _ =>
    let _bitmask_mant : Nat := 0x0FFF
    let dec : Nat := (b1 <<< 8) + b0
    let exponent : Nat := dec >>> 12
    let _mantissa_uint : Nat := (dec &&& _bitmask_mant) >>> 0
    let mantissa : Int := twos_comp_dec (_mantissa_uint : Int) 12
    if exponent = 0 then
      match lookupInt special_values_SFLOAT mantissa with
      | some s => .ok (.str s)
      | Option.none => .ok (.rat ((mantissa : ℚ) / (10 : ℚ) ^ exponent))
    else .ok (.rat ((mantissa : ℚ) / (10 : ℚ) ^ exponent))
  | _ => .error .indexError

/-! ### `utils.py`: the metadata model

`CHAR_XML` objects are built by the out-of-scope XML parser; the decode
engine only reads the nested-dict shape below.  The Python field dict
keys are flattened into optional structure fields; the `"Requirement"`,
`"Requirement-2"`, ... keys become the ordered list `requirements`, and
a bit's `Enumerations` sub-dict keeps its optional `"Requires"` entry as
`requiresMap`. -/

/-- One `Bit` entry of a `BitField` dict. -/
structure BitDef where
  index : Nat
  size : Nat
  enums : List (String × String) := []
  requiresMap : Option (List (String × String)) := Option.none
  deriving Repr, DecidableEq

/-- One entry of `CHAR_XML.fields`. -/
structure FieldDef where
  ctype : Option String := Option.none
  bitfield : Option (List (String × BitDef)) := Option.none
  enums : Option (List (String × String)) := Option.none
  requirements : List String := []
  reference : Option String := Option.none
  multiplier : Option Int := Option.none
  decimalExponent : Option Int := Option.none
  binaryExponent : Option Int := Option.none
  quantity : Option String := Option.none
  unit : Option String := Option.none
  symbol : Option String := Option.none
  deriving Repr, DecidableEq

/-- The characteristic metadata: the ordered `fields` dict. -/
structure CHAR_XML where
  fields : List (String × FieldDef)
  deriving Repr, DecidableEq

/-- `DATA_FMT` (source lines 109-137), in source order. -/
def DATA_FMT : List (String × String) :=
  [("sint8", "b"), ("uint8", "B"), ("sint16", "h"), ("uint16", "H"),
   ("uint24", "I"), ("sint32", "i"), ("uint32", "I"), ("uint40", "Q"),
   ("uint48", "Q"), ("utf8s", "utf8"), ("8bit", "B"), ("16bit", "h"),
   ("float64", "d"), ("variable", "X"), ("gatt_uuid", "X"), ("boolean", "?"),
   ("32bit", "I"), ("FLOAT", "f"), ("24bit", "I"), ("SFLOAT", "f"),
   ("sint24", "I"), ("nibble", "B"), ("2bit", "B"), ("uint128", "2Q"),
   ("uint12", "H"), ("4bit", "B"), ("characteristic", "X")]

/-! ### `utils.py`: helpers -/

/-- True for UTF-8 continuation bytes `0x80..0xBF`. -/
def isUtf8Cont (b : Nat) : Bool := 128 ≤ b && b < 192

/-- UTF-8 decoding worker; the fuel is the buffer length, so the
fuel-exhausted arm is unreachable from `utf8Decode`. -/
def utf8Go : Nat → List Nat → Except PyErr (List Char)
  | _, [] => .ok []
  | 0, _ :: _ => .error .unicodeDecodeError
  | fuel + 1, b :: rest =>
    if b < 128 then do
      let tl ← utf8Go fuel rest
      .ok (Char.ofNat b :: tl)
    else if b < 194 then .error .unicodeDecodeError
    else if b < 224 then
      match rest with
      | c1 :: rest2 =>
        if isUtf8Cont c1 then do
          let tl ← utf8Go fuel rest2
          .ok (Char.ofNat ((b - 192) * 64 + (c1 - 128)) :: tl)
        else .error .unicodeDecodeError
      | [] => .error .unicodeDecodeError
    else if b < 240 then
      match rest with
      | c1 :: c2 :: rest2 =>
        if isUtf8Cont c1 && isUtf8Cont c2 then
          let cp := (b - 224) * 4096 + (c1 - 128) * 64 + (c2 - 128)
          if cp < 2048 || (55296 ≤ cp && cp < 57344) then .error .unicodeDecodeError
          else do
            let tl ← utf8Go fuel rest2
            .ok (Char.ofNat cp :: tl)
        else .error .unicodeDecodeError
      | _ => .error .unicodeDecodeError
    else if b < 245 then
      match rest with
      | c1 :: c2 :: c3 :: rest2 =>
        if isUtf8Cont c1 && isUtf8Cont c2 && isUtf8Cont c3 then
          let cp := (b - 240) * 262144 + (c1 - 128) * 4096 + (c2 - 128) * 64 + (c3 - 128)
          if cp < 65536 || 1114112 ≤ cp then .error .unicodeDecodeError
          else do
            let tl ← utf8Go fuel rest2
            .ok (Char.ofNat cp :: tl)
        else .error .unicodeDecodeError
      | _ => .error .unicodeDecodeError
    else .error .unicodeDecodeError

/-- Python `bytes.decode("utf8")`. -/
def utf8Decode (bs : List Nat) : Except PyErr String := do
  let cs ← utf8Go bs.length bs
  .ok ⟨cs⟩

/-- `_unpack_data(ctype, data)` (source lines 421-428): UTF-8 decode for
the `utf8` pseudo-code, otherwise a single-value `struct.unpack` (the
`(data,) = ...` tuple assignment raises `ValueError` unless exactly one
value results). -/
def _unpack_data (ctype : String) (data : List Nat) : Except PyErr PyVal :=
  if ctype = "utf8" then do
    let s ← utf8Decode data
    .ok (.str s)
  else do
    let vs ← structUnpack ctype data
    match vs with
    | [v] => .ok v
    | _ => .error .valueError

/-- `_complete_bytes(self, bb)` (source lines 433-440): a module-level
function with TWO required positional parameters; it left-pads `bb`
with one zero byte when the length is odd. -/
def _complete_bytes (self : Unit) (bb : List Nat) : List Nat :=
  if bb.length % 2 = 0 then bb else 0 :: bb

/-- The call site `val = _complete_bytes(val)` (source line 703) passes
one argument to the two-parameter `_complete_bytes`, so CPython raises
`TypeError: _complete_bytes() missing 1 required positional argument:
'bb'` before the callee body can run — unconditionally, for every
input. -/
def _complete_bytes_call (val : List Nat) : Except PyErr (List Nat) :=
  .error .typeError

/-- `str(value)` as used for enumeration-key lookups.  Integer and
boolean reprs match CPython; enumeration keys are decimal strings, so a
float value misses the map in both semantics. -/
def pyStr : PyVal → String
  | .int i => toString i
  | .bool b => if b then "True" else "False"
  | .str s => s
  | .rat q => toString q
  | _ => ""

/-- A struct-unpacked value used as an integer for bit operations; a
float operand of `&` raises `TypeError` in Python. -/
def pyToInt : PyVal → Except PyErr Int
  | .int i => .ok i
  | .bool b => .ok (if b then 1 else 0)
  | _ => .error .typeError

/-- `_autobitmask(val, total_size, index, size, keymap)` (source lines
443-452).  The `eval`-built bitmask equals `(2^size - 1) * 2^index`
(string repetition with a negative count is empty, so this also covers
`total_size < index + size`).  A key missing from `keymap` raises
`KeyError`. -/
def _autobitmask (val : Int) (total_size index size : Nat)
    (keymap : List (String × String)) : Except PyErr String :=
  let _bitmask : Int := (2 ^ size - 1) * 2 ^ index
  let key : Int := (Int.land val _bitmask) >>> index
  match lookupStr keymap (toString key) with
  | some mapped_val => .ok mapped_val
  | Option.none => .error .keyError

/-- `_autobitmask_req` (source lines 455-467): as `_autobitmask`, but a
missing key returns the Python `False` sentinel, modelled as `none`. -/
def _autobitmask_req (val : Int) (total_size index size : Nat)
    (keymap : List (String × String)) : Option String :=
  let _bitmask : Int := (2 ^ size - 1) * 2 ^ index
  let key : Int := (Int.land val _bitmask) >>> index
  lookupStr keymap (toString key)

/-- Sum of the declared `size`s of a `BitField`'s bits. -/
def bitfieldTotalSize (bitfield : List (String × BitDef)) : Nat :=
  (bitfield.map (fun b => b.2.size)).sum

/-- The inner loop of `_autoformat`: decode every bit sub-range of one
bitfield against its primary enumerations. -/
def autoformatBits (bitfield : List (String × BitDef)) (val : Int) (total : Nat) :
    Except PyErr (List (String × String)) :=
  match bitfield with
  | [] => .ok []
  | (bitf, bd) :: rest => do
    let v ← _autobitmask val total bd.index bd.size bd.enums
    let tl ← autoformatBits rest val total
    .ok ((bitf, v) :: tl)

/-- The all-fields loop of `_autoformat`: one entry per field that has
both a `Ctype` and a `BitField`. -/
def autoformatFields (flds : List (String × FieldDef)) (val : Int) :
    Except PyErr (List (String × List (String × String))) :=
  match flds with
  | [] => .ok []
  | (name, fd) :: rest =>
    if fd.ctype.isSome then
      match fd.bitfield with
      | some bf => do
        let entry ← autoformatBits bf val (bitfieldTotalSize bf)
        let tl ← autoformatFields rest val
        .ok ((name, entry) :: tl)
      | Option.none => autoformatFields rest val
    else autoformatFields rest val

/-- `_autoformat(char, val, field_to_unpack)` (source lines 475-523). -/
def _autoformat (char : CHAR_XML) (val : Int) (field_to_unpack : Option String) :
    Except PyErr (List (String × List (String × String))) :=
  match field_to_unpack with
  | Option.none => autoformatFields char.fields val
  | some field =>
    match lookupStr char.fields field with
    | Option.none => .error .keyError
    | some fd =>
      if fd.ctype.isSome then
        match fd.bitfield with
        | some bf => do
          let entry ← autoformatBits bf val (bitfieldTotalSize bf)
          .ok [(field, entry)]
        | Option.none => .ok []
      else .ok []

/-- The per-bit loop of `_autoformat_reqs`: only bits whose
`Enumerations` dict has a `Requires` entry contribute. -/
def autoformatReqsBits (bitfield : List (String × BitDef)) (val : Int) (total : Nat) :
    List (String × Option String) :=
  bitfield.filterMap (fun p =>
    match p.2.requiresMap with
    | some rm => some (p.1, _autobitmask_req val total p.2.index p.2.size rm)
    | Option.none => Option.none)

/-- `_autoformat_reqs(char, val)` (source lines 529-555). -/
def _autoformat_reqs (char : CHAR_XML) (val : Int) :
    List (String × List (String × Option String)) :=
  char.fields.filterMap (fun p =>
    if p.2.ctype.isSome then
      match p.2.bitfield with
      | some bf => some (p.1, autoformatReqsBits bf val (bitfieldTotalSize bf))
      | Option.none => Option.none
    else Option.none)

/-- `_get_req(char_field)` (source lines 559-565): the values of the
field's `"Requirement"`/`"Requirement-N"` keys, which the metadata
model stores as the ordered `requirements` list. -/
def _get_req (char_field : FieldDef) : List String :=
  char_field.requirements

/-! ### `utils.py`: value formatting -/

/-- Python `value * m` for an integer scale `m` (`Multiplier`, or a
non-negative `10 ** e` / `2 ** e`).  Integers stay integers; a string
times an int is repetition.  A Python dict or None times an int raises
`TypeError`; those operands cannot reach this point from
`struct.unpack` results, and the branch is left as the identity. -/
def pyMulInt : PyVal → Int → PyVal
  | .int i, m => .int (i * m)
  | .rat q, m => .rat (q * m)
  | .bool b, m => .int ((if b then 1 else 0) * m)
  | .str s, m => .str (String.join (List.replicate m.toNat s))
  | v, _ => v

/-- Python `value * q` for a float scale (a negative `10 ** e` or
`2 ** e` yields a float): the result is a float, modelled exactly as a
rational.  A string times a float raises `TypeError` in Python; no
metadata couples a string field with a fractional scale, and the branch
is left as the identity. -/
def pyMulRat : PyVal → ℚ → PyVal
  | .int i, q => .rat (i * q)
  | .rat r, q => .rat (r * q)
  | .bool b, q => .rat ((if b then 1 else 0) * q)
  | v, _ => v

/-- Python `value *= base ** e` with an integer `e`: an int power when
`0 ≤ e`, a float (exact rational) power otherwise. -/
def pyScalePow (v : PyVal) (base : Nat) (e : Int) : PyVal :=
  if 0 ≤ e then pyMulInt v ((base : Int) ^ e.toNat)
  else pyMulRat v ((base : ℚ) ^ e)

/-- The `Multiplier` / `DecimalExponent` / `BinaryExponent` scaling
steps, applied in the source's fixed order. -/
def scaleField (fd : FieldDef) (raw : PyVal) : PyVal :=
  let v := match fd.multiplier with
    | some m => pyMulInt raw m
    | Option.none => raw
  let v := match fd.decimalExponent with
    | some d => pyScalePow v 10 d
    | Option.none => v
  match fd.binaryExponent with
  | some b => pyScalePow v 2 b
  | Option.none => v

/-- The optional `Quantity` / `Unit` / `Symbol` entries copied into a
decoded field's dict, in the source's order. -/
def metaEntries (fd : FieldDef) : List (String × PyVal) :=
  (match fd.quantity with
    | some q => [("Quantity", PyVal.str q)]
    | Option.none => []) ++
  (match fd.unit with
    | some u => [("Unit", PyVal.str u)]
    | Option.none => []) ++
  (match fd.symbol with
    | some s => [("Symbol", PyVal.str s)]
    | Option.none => [])

/-- One decoded field's dict: metadata entries followed by the scaled
`Value` (the shape shared by the single-field and the no-Flags
multi-field formatting loops). -/
def formatOne (fd : FieldDef) (raw : PyVal) : List (String × PyVal) :=
  metaEntries fd ++ [("Value", scaleField fd raw)]

/-- `struct.pack(fmt, v)` for a single integer-like code (the only use
is source lines 758-761, packing a referenced bitfield's raw integer;
a bitfield field is an integer, so only integer codes are modelled and
anything else raises `struct.error`). -/
def structPack (fmt : String) (v : PyVal) : Except PyErr (List Nat) := do
  let codes ← fmtCodes fmt.toList Option.none
  let i ← match v with
    | .int i => Except.ok i
    | .bool b => Except.ok (if b then (1 : Int) else 0)
    | _ => Except.error PyErr.structError
  match codes with
  | [c] =>
    match c with
    | 'b' => if -128 ≤ i ∧ i < 128 then .ok [(i.emod 256).toNat] else .error .structError
    | 'B' => if 0 ≤ i ∧ i < 256 then .ok [i.toNat] else .error .structError
    | 'h' =>
      if -(2 ^ 15) ≤ i ∧ i < 2 ^ 15 then
        .ok [(i.emod 65536).toNat % 256, (i.emod 65536).toNat / 256]
      else .error .structError
    | 'H' =>
      if 0 ≤ i ∧ i < 2 ^ 16 then .ok [i.toNat % 256, i.toNat / 256]
      else .error .structError
    | 'i' =>
      if -(2 ^ 31) ≤ i ∧ i < 2 ^ 31 then
        .ok ((List.range 4).map (fun k => ((i.emod (2 ^ 32)).toNat / 256 ^ k) % 256))
      else .error .structError
    | 'I' =>
      if 0 ≤ i ∧ i < 2 ^ 32 then
        .ok ((List.range 4).map (fun k => (i.toNat / 256 ^ k) % 256))
      else .error .structError
    | 'q' =>
      if -(2 ^ 63) ≤ i ∧ i < 2 ^ 63 then
        .ok ((List.range 8).map (fun k => ((i.emod (2 ^ 64)).toNat / 256 ^ k) % 256))
      else .error .structError
    | 'Q' =>
      if 0 ≤ i ∧ i < 2 ^ 64 then
        .ok ((List.range 8).map (fun k => (i.toNat / 256 ^ k) % 256))
      else .error .structError
    | '?' => .ok [if i = 0 then 0 else 1]
    | _ => .error .structError
  | _ => .error .structError

/-! ### `utils.py`: the decode entry points -/

/-- The `for field in char.fields` scan shared by `_get_single_field`:
the first field that carries a `Ctype` (every branch of the loop body
returns, so later fields are never visited). -/
def findCtypeField : List (String × FieldDef) → Option (String × FieldDef × String)
  | [] => Option.none
  | (name, fd) :: rest =>
    match fd.ctype with
    | some ct => some (name, fd, ct)
    | Option.none => findCtypeField rest

/-- `_get_single_field(char, val)` (source lines 570-623). -/
def _get_single_field (char : CHAR_XML) (val : List Nat) : Except PyErr PyVal :=
  match findCtypeField char.fields with
  | Option.none => .ok PyVal.none
  | some (field, fd, ctype) =>
    match fd.bitfield with
    | some _ => do
      -- CASE 1A: BITFIELD
      let vs ← structUnpack ctype val
      let raw_data ← match vs with
        | [v] => pyToInt v
        | _ => Except.error PyErr.valueError
      let af ← _autoformat char raw_data Option.none
      let data ← match af with
        | x :: _ => Except.ok x.2
        | [] => Except.error PyErr.indexError
      .ok (PyVal.dict [(field,
        PyVal.dict [("Value", PyVal.dict (data.map (fun p => (p.1, PyVal.str p.2))))])])
    | Option.none =>
      match fd.enums with
      | some keymap =>
        if !keymap.isEmpty then do
          -- CASE 1B.1: MAPPED VALUE
          let vs ← structUnpack ctype val
          let data ← match vs with
            | [v] => Except.ok v
            | _ => Except.error PyErr.valueError
          match lookupStr keymap (pyStr data) with
          | some mapped_val =>
            .ok (PyVal.dict [(field, PyVal.dict [("Value", PyVal.str mapped_val)])])
          | Option.none =>
            -- "Value not in keymap": fall through to the scaling code
            -- with the raw unpacked value
            .ok (PyVal.dict [(field, PyVal.dict (formatOne fd data))])
        else do
          let vs ← structUnpack ctype val
          let data ← match vs with
            | [v] => Except.ok v
            | _ => Except.error PyErr.valueError
          .ok (PyVal.dict [(field, PyVal.dict (formatOne fd data))])
      | Option.none => do
        -- CASE 1B.2: SINGLE VALUE
        let data ← _unpack_data ctype val
        .ok (PyVal.dict [(field, PyVal.dict (formatOne fd data))])

/-- The field-selection loop shared verbatim by both multi-field
branches (source lines 651-665 and 775-789).  `reqVals` is
`_REQS.values()` when `_REQS` is a dict and `none` when `_REQS is
None`; the comprehension inside `all([...])` only touches
`_REQS.values()` when the requirement list is non-empty, so an empty
list is included vacuously while a non-empty one meets
`AttributeError` when `_REQS` is `None`. -/
def selectFields (reqVals : Option (List (Option String))) :
    List (String × FieldDef) → Except PyErr (List String)
  | [] => .ok []
  | (name, fd) :: rest =>
    if name = "Flags" then selectFields reqVals rest
    else
      let field_req := _get_req fd
      if "Mandatory" ∈ field_req then do
        let tl ← selectFields reqVals rest
        .ok (name :: tl)
      else
        match field_req, reqVals with
        | [], _ => do
          let tl ← selectFields reqVals rest
          .ok (name :: tl)
        | _ :: _, Option.none => .error .attributeError
        | frs, some rv =>
          if frs.all (fun r => rv.contains (some r)) then do
            let tl ← selectFields reqVals rest
            .ok (name :: tl)
          else selectFields reqVals rest

/-- The running state of the reference-expansion loop: the accumulated
unpack format, the (mutated) `_FIELDS_TO_READ` list, and the
`_REFERENCE_FIELDS` dict. -/
structure ExpandResult where
  ctype_global : String
  fieldsToRead : List String
  referenceFields : List (String × FieldDef)
  deriving Repr, DecidableEq

/-- `_FIELDS_TO_READ.pop(i)` followed by inserting the reversed
reference list at `i`: the referenced names replace the referencing
field at its position, in their own order. -/
def spliceAt (l : List String) (idx : Nat) (refs : List String) : List String :=
  l.take idx ++ refs ++ l.drop (idx + 1)

/-- One iteration of the `for field in copy_FIELDS_TO_READ` loop
(source lines 672-696 and 797-821): append the field's own `Ctype` to
the format; when the field carries a `Reference`, resolve it through
the characteristic lookup (`get_xml_char`, modelled by `env`; a failed
resolution raises the file-lookup error), record every referenced
field in `_REFERENCE_FIELDS`, append the referenced `Ctype`s, and
substitute the referenced names into `_FIELDS_TO_READ`. -/
def expandStep (env : String → Option CHAR_XML) (char : CHAR_XML)
    (st : ExpandResult) (field : String) : Except PyErr ExpandResult :=
  match lookupStr char.fields field with
  | Option.none => .error .keyError
  | some fd =>
    let fmt := match fd.ctype with
      | some c => st.ctype_global ++ c
      | Option.none => st.ctype_global
    match fd.reference with
    | Option.none => .ok { st with ctype_global := fmt }
    | some reference =>
      match env reference with
      | Option.none => .error .fileNotFoundError
      | some reference_char =>
        let refNames := reference_char.fields.map Prod.fst
        let refF := reference_char.fields.foldl
          (fun acc p => dictUpdate acc p.1 p.2) st.referenceFields
        let fmt := fmt ++ String.join (reference_char.fields.filterMap (fun p => p.2.ctype))
        match st.fieldsToRead.findIdx? (· = field) with
        | Option.none => .error .valueError
        | some char_index =>
          .ok { ctype_global := fmt,
                fieldsToRead := spliceAt st.fieldsToRead char_index refNames,
                referenceFields := refF }

/-- The whole reference-expansion loop over the selection snapshot. -/
def expandFields (env : String → Option CHAR_XML) (char : CHAR_XML)
    (fmt0 : String) (sel : List String) : Except PyErr ExpandResult :=
  sel.foldlM (expandStep env char) ⟨fmt0, sel, []⟩

/-- `dict(zip(keys, vals))`: pairs up to the shorter list, later
duplicates overwrite in place. -/
def pyDictOfZip (keys : List String) (vals : List PyVal) : List (String × PyVal) :=
  (List.zip keys vals).foldl (fun acc p => dictUpdate acc p.1 p.2) []

/-- The per-field formatting loop of the no-Flags multi-field branch
(source lines 832-878): a field still present in `char.fields` is
formatted from its own metadata; otherwise, when `_REFERENCE_FIELDS`
is non-empty, from the referenced definition's metadata (a referenced
bitfield additionally runs the vestigial `struct.pack` of source lines
758-761 only in the Flags branch, which is unreachable); with no
reference fields recorded the entry stays the empty dict. -/
def formatFieldsVals (char : CHAR_XML) (refF : List (String × FieldDef))
    (rawVals : List (String × PyVal)) :
    List String → List (String × PyVal) → Except PyErr (List (String × PyVal))
  | [], acc => .ok acc
  | field :: rest, acc => do
    let entry ←
      match lookupStr char.fields field with
      | some fd => do
        let raw ← match lookupStr rawVals field with
          | some v => Except.ok v
          | Option.none => Except.error PyErr.keyError
        Except.ok (PyVal.dict (formatOne fd raw))
      | Option.none =>
        if refF.isEmpty then Except.ok (PyVal.dict [])
        else
          match lookupStr refF field with
          | some fd => do
            let raw ← match lookupStr rawVals field with
              | some v => Except.ok v
              | Option.none => Except.error PyErr.keyError
            Except.ok (PyVal.dict (formatOne fd raw))
          | Option.none => Except.error PyErr.keyError
    formatFieldsVals char refF rawVals rest (dictUpdate acc field entry)

/-- The `Flags`-probing prologue of `_get_multiple_fields` (source
lines 630-642): when a `Flags` field with a `Ctype` and a `BitField`
exists, unpack its raw integer from the head of the blob and decode it
against the primary enumerations (`_FLAGS`) and the `Requires` maps
(`_REQS`), both taken from the first entry of the respective
all-fields dicts.  Returns `none` when `_FLAGS`/`_REQS` stay `None`. -/
def flagsStep (char : CHAR_XML) (val : List Nat) :
    Except PyErr (Option (String × List (String × String) × List (String × Option String))) :=
  match lookupStr char.fields "Flags" with
  | Option.none => .ok Option.none
  | some fd =>
    match fd.ctype with
    | Option.none => .ok Option.none
    | some ctype_flag =>
      if fd.bitfield.isSome then do
        let n ← structCalcsize ctype_flag
        let vs ← structUnpack ctype_flag (val.take n)
        let raw_data ← match vs with
          | [v] => pyToInt v
          | _ => Except.error PyErr.valueError
        let af ← _autoformat char raw_data Option.none
        let _FLAGS ← match af with
          | x :: _ => Except.ok x.2
          | [] => Except.error PyErr.indexError
        let rqs := _autoformat_reqs char raw_data
        let _REQS ← match rqs with
          | x :: _ => Except.ok x.2
          | [] => Except.error PyErr.indexError
        .ok (some (ctype_flag, _FLAGS, _REQS))
      else .ok Option.none

/-- The no-Flags branch of `_get_multiple_fields` (source lines
770-883), also reached when the decoded `_FLAGS` dict is empty (then
`_REQS` is an empty dict, not `None`).  An empty selection falls off
the function and returns `None`. -/
def noFlagsBranch (env : String → Option CHAR_XML) (char : CHAR_XML)
    (val : List Nat) (rtn_flags : Bool) (flagsVal : PyVal)
    (reqVals : Option (List (Option String))) : Except PyErr PyVal := do
  let sel ← selectFields reqVals char.fields
  if sel.isEmpty then .ok PyVal.none
  else do
    let st ← expandFields env char "" sel
    let data ← structUnpack st.ctype_global val
    let _RAW_VALS := pyDictOfZip st.fieldsToRead data
    let _FIELDS_VALS ← formatFieldsVals char st.referenceFields _RAW_VALS st.fieldsToRead []
    if !rtn_flags then .ok (PyVal.dict _FIELDS_VALS)
    else .ok (PyVal.list [PyVal.dict _FIELDS_VALS, flagsVal])

/-- `_get_multiple_fields(char, val, rtn_flags)` (source lines
626-883). -/
def _get_multiple_fields (env : String → Option CHAR_XML) (char : CHAR_XML)
    (val : List Nat) (rtn_flags : Bool) : Except PyErr PyVal := do
  let st ← flagsStep char val
  match st with
  | some (ctype_flag, _FLAGS, _REQS) =>
    if !_FLAGS.isEmpty then do
      -- CASE 2.A with a truthy Flags dict
      let _FIELDS_TO_READ ← selectFields (some (_REQS.map Prod.snd)) char.fields
      if _FIELDS_TO_READ.isEmpty then .ok PyVal.none
      else do
        let _ ← expandFields env char ctype_flag _FIELDS_TO_READ
        let _ ← _complete_bytes_call val
        -- unreachable: `_complete_bytes_call` always raises `TypeError`,
        -- so the final unpack and the Flags-branch formatting (source
        -- lines 704-769) can never execute and are not modelled further.
        .error .typeError
    else
      noFlagsBranch env char val rtn_flags
        (PyVal.dict (_FLAGS.map (fun p => (p.1, PyVal.str p.2))))
        (some (_REQS.map Prod.snd))
  | Option.none => noFlagsBranch env char val rtn_flags PyVal.none Option.none

/-- `get_char_value(value, characteristic, rtn_flags)` (source lines
886-921), taking the already-built metadata (the `str` /
`BleakGATTCharacteristic` overloads resolve through the out-of-scope
XML lookup, modelled by `env` for `Reference` resolution). -/
def get_char_value (env : String → Option CHAR_XML) (value : List Nat)
    (characteristic : CHAR_XML) (rtn_flags : Bool) : Except PyErr PyVal :=
  if characteristic.fields.length = 1 then
    _get_single_field characteristic value
  else
    _get_multiple_fields env characteristic value rtn_flags

/-! ## Helper lemmas -/

/-- `Int.land` on natural casts is `Nat.land` (definitional). -/
theorem int_land_natCast (a b : Nat) : Int.land (a : Int) (b : Int) = ((a &&& b : Nat) : Int) := by
  rfl

/-- `Int.land` of a negative number with a natural cast is a `Nat.ldiff`
(definitional). -/
theorem int_land_negSucc (a b : Nat) :
    Int.land (Int.negSucc a) (b : Int) = ((Nat.ldiff b a : Nat) : Int) := by
  rfl

/-- Subtracting from an all-ones mask is the `ldiff` complement. -/
theorem ldiff_two_pow_sub_one (b v : Nat) :
    Nat.ldiff (2 ^ b - 1) v = 2 ^ b - 1 - v % 2 ^ b := by
  have hpos : 0 < 2 ^ b := Nat.pos_pow_of_pos b (by norm_num)
  have hlt : v % 2 ^ b < 2 ^ b := Nat.mod_lt v hpos
  have h2 : 2 ^ b - 1 - v % 2 ^ b = 2 ^ b - (v % 2 ^ b + 1) := by omega
  rw [h2]
  apply Nat.eq_of_testBit_eq
  intro i
  rw [Nat.testBit_ldiff, Nat.testBit_two_pow_sub_one,
    Nat.testBit_two_pow_sub_succ hlt i]
  by_cases hi : i < b
  · have := Nat.testBit_mod_two_pow v b i
    simp [hi] at this
    simp [hi, this]
  · simp [hi]

/-- Python `m & (2 ** b - 1)` is `m mod 2^b`, for every integer `m`
(two's-complement semantics of `Int.land`). -/
theorem int_land_two_pow_sub_one (m : Int) (b : Nat) :
    Int.land m ((2 ^ b - 1 : Nat) : Int) = m % ((2 ^ b : Nat) : Int) := by
  have hpos : 0 < 2 ^ b := Nat.pos_pow_of_pos b (by norm_num)
  cases m with
  | ofNat v =>
    rw [show Int.ofNat v = ((v : Nat) : Int) from rfl, int_land_natCast,
      Nat.and_pow_two_sub_one_eq_mod, Int.natCast_mod]
  | negSucc v =>
    rw [int_land_negSucc, ldiff_two_pow_sub_one]
    have hr : v % 2 ^ b < 2 ^ b := Nat.mod_lt v hpos
    have hv : 2 ^ b * (v / 2 ^ b) + v % 2 ^ b = v := Nat.div_add_mod v (2 ^ b)
    have hvz : ((2 ^ b : Nat) : Int) * ((v / 2 ^ b : Nat) : Int) + ((v % 2 ^ b : Nat) : Int)
        = ((v : Nat) : Int) := by exact_mod_cast congrArg (Nat.cast : Nat → Int) hv
    have key : Int.negSucc v =
        ((2 ^ b - 1 - v % 2 ^ b : Nat) : Int) +
          ((2 ^ b : Nat) : Int) * (-((v / 2 ^ b : Nat) : Int) - 1) := by
      rw [Int.negSucc_eq]
      have hc1 : ((2 ^ b - 1 - v % 2 ^ b : Nat) : Int) =
          ((2 ^ b : Nat) : Int) - 1 - ((v % 2 ^ b : Nat) : Int) := by
        omega
      rw [hc1]
      linear_combination hvz
    rw [key, Int.add_mul_emod_self_left]
    have hxlt : (2 ^ b - 1 - v % 2 ^ b : Nat) < 2 ^ b := by omega
    exact (Int.emod_eq_of_lt (Int.natCast_nonneg _) (by exact_mod_cast hxlt)).symm

/-- `twos_comp(val, bits)` is exactly `val mod 2^bits`: the sign fold
never changes the residue and the final mask reduces to it. -/
theorem twos_comp_eq_emod (m : Int) (bits : Nat) :
    twos_comp m bits = m % ((2 ^ bits : Nat) : Int) := by
  unfold twos_comp
  have hmask : ((2 : Int) ^ bits - 1) = ((2 ^ bits - 1 : Nat) : Int) := by
    have h1 : (1 : Nat) ≤ 2 ^ bits := Nat.one_le_two_pow
    push_cast [h1]
    ring
  split
  · rw [hmask, int_land_two_pow_sub_one]
    have h := Int.add_mul_emod_self_left m ((2 ^ bits : Nat) : Int) (-1)
    have hrw : m + ((2 ^ bits : Nat) : Int) * (-1) = m - (2 : Int) ^ bits := by
      push_cast
      ring
    rw [hrw] at h
    exact h
  · rw [hmask, int_land_two_pow_sub_one]

/-- `twos_comp_dec` inverts the 12-bit two's-complement encoding. -/
theorem twos_comp_dec_emod (m : Int) (h1 : -(2 ^ 11) ≤ m) (h2 : m < 2 ^ 11) :
    twos_comp_dec (((m % 4096).toNat : Nat) : Int) 12 = m := by
  have hnn : 0 ≤ m % 4096 := Int.emod_nonneg m (by norm_num)
  have hlt : m % 4096 < 4096 := Int.emod_lt_of_pos m (by norm_num)
  set mu : Nat := (m % 4096).toNat with hmu
  have hcast : (mu : Int) = m % 4096 := Int.toNat_of_nonneg hnn
  unfold twos_comp_dec
  have hland : Int.land ((mu : Nat) : Int) (2 ^ (12 - 1)) = ((mu &&& 2 ^ 11 : Nat) : Int) := by
    have h2p : ((2 : Int) ^ (12 - 1)) = (((2 ^ 11 : Nat)) : Int) := by norm_num
    rw [h2p, int_land_natCast]
  rw [hland, Nat.and_two_pow]
  rcases le_or_lt 0 m with hm | hm
  · have hmuv : (mu : Int) = m := by
      rw [hcast]
      exact Int.emod_eq_of_lt hm (by omega)
    have hmult : mu < 2 ^ 11 := by omega
    have htb : mu.testBit 11 = false := Nat.testBit_lt_two_pow hmult
    rw [htb]
    simp only [Bool.toNat_false, Nat.zero_mul, Nat.cast_zero]
    rw [if_neg (by simp)]
    exact hmuv
  · have hmuv : (mu : Int) = m + 4096 := by
      rw [hcast]
      have h4 : (m + 4096 * 1) % (4096 : Int) = m % 4096 := Int.add_mul_emod_self_left m 4096 1
      have h5 : (m + 4096 * 1) % (4096 : Int) = m + 4096 * 1 :=
        Int.emod_eq_of_lt (by omega) (by omega)
      omega
    have hmge : 2 ^ 11 ≤ mu := by omega
    have hmlt : mu < 2 ^ 12 := by omega
    have htb : mu.testBit 11 = true := by
      rw [Nat.testBit_to_div_mod]
      have hd : mu / 2 ^ 11 = 1 := by omega
      rw [hd]
      norm_num
    rw [htb]
    simp only [Bool.toNat_true, Nat.one_mul]
    rw [if_pos (by norm_num)]
    have h4096 : ((2 : Int) ^ 12) = 4096 := by norm_num
    rw [h4096]
    omega

/-! ## Claim C4 -/

/-- Closed form of `decode_SFLOAT_ieee11073` on a non-sentinel input:
the two bytes encode the unsigned exponent nibble `e` over the 12-bit
two's-complement mantissa `m`, and the result is `m / 10 ^ e`. -/
theorem decode_SFLOAT_nonsentinel (e : Nat) (m : Int)
    (hm1 : -(2 ^ 11) ≤ m) (hm2 : m < 2 ^ 11)
    (hs : ¬(e = 0 ∧ (lookupInt special_values_SFLOAT m).isSome)) (he : e < 16) :
    decode_SFLOAT_ieee11073
      [(e * 4096 + (m % 4096).toNat) % 256,
       (e * 4096 + (m % 4096).toNat) / 256] =
    .ok (.rat ((m : ℚ) / (10 : ℚ) ^ e)) := by
  have hnn : 0 ≤ m % 4096 := Int.emod_nonneg m (by norm_num)
  have hlt : m % 4096 < 4096 := Int.emod_lt_of_pos m (by norm_num)
  have htc := twos_comp_dec_emod m hm1 hm2
  set mu : Nat := (m % 4096).toNat with hmu
  have hmulo : mu < 4096 := by omega
  set n : Nat := e * 4096 + mu with hn
  have hdec : (n / 256) <<< 8 + n % 256 = n := by
    rw [Nat.shiftLeft_eq]
    have h256 : (2 : Nat) ^ 8 = 256 := by norm_num
    rw [h256]
    omega
  have hexp : n >>> 12 = e := by
    rw [Nat.shiftRight_eq_div_pow]
    have h4096 : (2 : Nat) ^ 12 = 4096 := by norm_num
    rw [h4096]
    omega
  have hmant : (n &&& 4095) >>> 0 = mu := by
    rw [Nat.shiftRight_zero, show (4095 : Nat) = 2 ^ 12 - 1 from by norm_num,
      Nat.and_pow_two_sub_one_eq_mod]
    have h4096 : (2 : Nat) ^ 12 = 4096 := by norm_num
    rw [h4096]
    omega
  show decode_SFLOAT_ieee11073 [n % 256, n / 256] = .ok (.rat ((m : ℚ) / (10 : ℚ) ^ e))
  unfold decode_SFLOAT_ieee11073
  simp only []
  rw [show (0x0FFF : Nat) = 4095 from rfl]
  rw [hdec, hexp, hmant, htc]
  rcases Nat.eq_zero_or_pos e with he0 | hepos
  · subst he0
    have hnone : lookupInt special_values_SFLOAT m = Option.none := by
      rcases h : lookupInt special_values_SFLOAT m with _ | s
      · rfl
      · exact absurd ⟨rfl, by rw [h]; rfl⟩ hs
    rw [if_pos rfl, hnone]
  · rw [if_neg (by omega)]

/-- C4 counterexample: on the 2-byte input `[0x05, 0x10]` (exponent
nibble 1, mantissa 5, not a sentinel) `decode_SFLOAT_ieee11073` returns
`5 / 10 = 1/2`, not the claimed `mantissa × 10^exponent = 50`. -/
theorem c4_counterexample :
    decode_SFLOAT_ieee11073 [5, 16] = .ok (.rat (1 / 2)) ∧
    ((1 : ℚ) / 2 ≠ (5 : ℚ) * (10 : ℚ) ^ (1 : Int)) := by
  constructor
  · have h := decode_SFLOAT_nonsentinel 1 5 (by norm_num) (by norm_num)
      (by norm_num) (by norm_num)
    norm_num at h
    exact h
  · norm_num

/-- C4 (amended): for every 2-byte input whose high nibble is the
unsigned exponent `e` and whose low 12 bits are the two's-complement
mantissa `m`, when `(e, m)` is not one of the five sentinel codes,
`decode_SFLOAT_ieee11073` returns `m / 10 ^ e` — the exponent is taken
unsigned (0..15) and divides, rather than the claimed signed
two's-complement exponent multiplying. -/
theorem c4_amended_decode_SFLOAT (e : Nat) (m : Int)
    (he : e < 16) (hm1 : -(2 ^ 11) ≤ m) (hm2 : m < 2 ^ 11)
    (hs : ¬(e = 0 ∧ (lookupInt special_values_SFLOAT m).isSome)) :
    decode_SFLOAT_ieee11073
      [(e * 4096 + (m % 4096).toNat) % 256,
       (e * 4096 + (m % 4096).toNat) / 256] =
    .ok (.rat ((m : ℚ) / (10 : ℚ) ^ e)) :=
  decode_SFLOAT_nonsentinel e m hm1 hm2 hs he

/-- C4 amended-theorem witness: exponent nibble 2, mantissa 7 gives
`decode_SFLOAT_ieee11073 [7, 32] = 7/100`. -/
theorem c4_amended_witness :
    decode_SFLOAT_ieee11073 [7, 32] = .ok (.rat (7 / 100)) := by
  have h := c4_amended_decode_SFLOAT 2 7 (by norm_num) (by norm_num) (by norm_num)
    (by norm_num)
  norm_num at h
  exact h

/-! ## Claim C9 -/

/-- C9 counterexample: at exponent byte 0 and mantissa `−(2^23−1)` (the
4-byte little-endian input `[1, 0, 128, 0]`) the code returns the label
`"Reserved for future use"`, not the claimed `"Reserved"` (likewise the
negative-infinity label is spelled with an en dash, `"–INFINITY"`, not
`"−INFINITY"`). -/
theorem c9_counterexample :
    decode_FLOAT_ieee11073 [1, 0, 128, 0] = .ok (.str "Reserved for future use") ∧
    "Reserved for future use" ≠ "Reserved" := by
  exact ⟨rfl, by decide⟩

/-- C9 (amended): with exponent byte 0, each of the five reserved
24-bit two's-complement mantissa codes (which determine the input
bytes uniquely) decodes to its sentinel label — the code's exact label
strings being `"+INFINITY"`, `"NaN"`, `"NRes"`, `"Reserved for future
use"` and `"–INFINITY"` — and not to a number. -/
theorem c9_amended_sentinels :
    decode_FLOAT_ieee11073 [254, 255, 127, 0] = .ok (.str "+INFINITY") ∧
    decode_FLOAT_ieee11073 [255, 255, 127, 0] = .ok (.str "NaN") ∧
    decode_FLOAT_ieee11073 [0, 0, 128, 0] = .ok (.str "NRes") ∧
    decode_FLOAT_ieee11073 [1, 0, 128, 0] = .ok (.str "Reserved for future use") ∧
    decode_FLOAT_ieee11073 [2, 0, 128, 0] = .ok (.str "–INFINITY") := by
  exact ⟨rfl, rfl, rfl, rfl, rfl⟩

/-! ## Claim C5 -/

/-- The single-field characteristic a `uint24`-format field produces:
its `Ctype` is `DATA_FMT["uint24"] = "I"`. -/
def uint24Char : CHAR_XML := ⟨[("V", { ctype := some "I" })]⟩

/-- C5 counterexample: `DATA_FMT` maps `uint24` to the 4-byte struct
code `"I"`, so a `uint24` field consumes 4 bytes, not the claimed 3:
decoding a 3-byte blob raises `struct.error` while the 4-byte blob
`[1, 2, 3, 0]` succeeds (as an unsigned 32-bit little-endian value). -/
theorem c5_counterexample :
    lookupStr DATA_FMT "uint24" = some "I" ∧
    structCalcsize "I" = .ok 4 ∧
    _get_single_field uint24Char [1, 2, 3] = .error .structError ∧
    _get_single_field uint24Char [1, 2, 3, 0] =
      .ok (.dict [("V", .dict [("Value", .int 197121)])]) := by
  exact ⟨rfl, rfl, rfl, rfl⟩

/-- C5 (amended): the 8/16/32-bit integer formats occupy exactly their
declared widths and unpack little-endian, but `uint24` and `sint24`
both map to the 4-byte (unsigned) code `"I"`, `uint40`/`uint48` to the
8-byte `"Q"`, and the format string is native-mode, so alignment
padding can separate fields (`calcsize("BI") = 8`). -/
theorem c5_amended_widths :
    (lookupStr DATA_FMT "sint8" = some "b" ∧ structCalcsize "b" = .ok 1) ∧
    (lookupStr DATA_FMT "uint8" = some "B" ∧ structCalcsize "B" = .ok 1) ∧
    (lookupStr DATA_FMT "sint16" = some "h" ∧ structCalcsize "h" = .ok 2) ∧
    (lookupStr DATA_FMT "uint16" = some "H" ∧ structCalcsize "H" = .ok 2) ∧
    (lookupStr DATA_FMT "sint32" = some "i" ∧ structCalcsize "i" = .ok 4) ∧
    (lookupStr DATA_FMT "uint32" = some "I" ∧ structCalcsize "I" = .ok 4) ∧
    (lookupStr DATA_FMT "uint24" = some "I" ∧ lookupStr DATA_FMT "sint24" = some "I" ∧
      structCalcsize "I" = .ok 4) ∧
    (lookupStr DATA_FMT "uint40" = some "Q" ∧ lookupStr DATA_FMT "uint48" = some "Q" ∧
      structCalcsize "Q" = .ok 8) ∧
    structUnpack "I" [1, 0, 0, 7] = .ok [.int 117440513] ∧
    structCalcsize "BI" = .ok 8 := by
  exact ⟨⟨rfl, rfl⟩, ⟨rfl, rfl⟩, ⟨rfl, rfl⟩, ⟨rfl, rfl⟩, ⟨rfl, rfl⟩, ⟨rfl, rfl⟩,
    ⟨rfl, rfl, rfl⟩, ⟨rfl, rfl, rfl⟩, rfl, rfl⟩

/-! ## Claim C6 -/

/-- C6 counterexample: `encode_SFLOAT_ieee11073(-500, 1)` has scaled
mantissa `-5000`, whose absolute encoded value `5000 ≥ 2^11`, yet the
call succeeds (returning `[120, 28]`, the mantissa wrapped modulo
`2^12`) instead of failing with the mantissa-overflow error — the
`assert val < 2**11` check is one-sided. -/
theorem c6_counterexample :
    encode_SFLOAT_ieee11073 (-500) 1 = .ok [120, 28] ∧
    truncInt ((-500 : ℚ) * (10 : ℚ) ^ (1 : Int)) = -5000 ∧
    2 ^ 11 ≤ (-5000 : Int).natAbs := by
  have hval : truncInt ((-500 : ℚ) * (10 : ℚ) ^ (1 : Int)) = -5000 := by
    unfold truncInt
    rw [show ((-500 : ℚ) * (10 : ℚ) ^ (1 : Int)) = ((-5000 : Int) : ℚ) from by norm_num]
    rw [if_neg (by norm_num)]
    exact Int.ceil_intCast (-5000)
  refine ⟨?_, hval, by norm_num⟩
  unfold encode_SFLOAT_ieee11073
  rw [hval, if_pos (by norm_num), twos_comp_eq_emod]
  rw [show ((1 : Int) * 2 ^ 12 + (-5000 : Int) % ((2 ^ 12 : Nat) : Int)) = 7288 from by
    norm_num]
  unfold int_to_bytes_signed
  rw [if_neg (by norm_num)]
  norm_num [List.range_succ]
  decide

/-- C6 (amended): `encode_SFLOAT_ieee11073 value precision` fails with
the mantissa-overflow `AssertionError` iff the truncated scaled
mantissa `int(value * 10 ** precision)` is at least `2^11` — a purely
positive-side check, so arbitrarily large negative mantissas pass; and
whenever the mantissa passes and the 16-bit packing `(precision << 12)
+ twos_comp(val, 12)` is in signed 16-bit range, the result is its two
little-endian bytes. -/
theorem c6_amended (value : ℚ) (precision : Int) :
    ((encode_SFLOAT_ieee11073 value precision =
        .error (.assertionError "Mantissa too big")) ↔
      2 ^ 11 ≤ truncInt (value * (10 : ℚ) ^ precision)) ∧
    (∀ n : Int,
      n = precision * 2 ^ 12 + twos_comp (truncInt (value * (10 : ℚ) ^ precision)) 12 →
      truncInt (value * (10 : ℚ) ^ precision) < 2 ^ 11 →
      -(2 : Int) ^ 15 ≤ n → n < 2 ^ 15 →
      encode_SFLOAT_ieee11073 value precision =
        .ok [(n % 65536).toNat % 256, (n % 65536).toNat / 256 % 256]) := by
  constructor
  · constructor
    · intro hs
      by_contra h
      push_neg at h
      unfold encode_SFLOAT_ieee11073 at hs
      rw [if_pos h] at hs
      unfold int_to_bytes_signed at hs
      split at hs <;> simp at hs
    · intro h
      unfold encode_SFLOAT_ieee11073
      rw [if_neg (by omega)]
  · intro n hn hlt hlo hhi
    have hlo' : -32768 ≤ n := by norm_num at hlo; exact hlo
    have hhi' : n < 32768 := by norm_num at hhi; exact hhi
    unfold encode_SFLOAT_ieee11073
    rw [if_pos hlt, ← hn]
    unfold int_to_bytes_signed
    rw [if_neg (by push_neg; norm_num; omega)]
    norm_num [List.range_succ]

/-- C6 amended-theorem witness: `encode_SFLOAT(250, 1)` overflows
positively (mantissa 2500) and fails; `encode_SFLOAT(36.6, 1)`
(mantissa 366, packing 4462) returns `[110, 17]`. -/
theorem c6_amended_witness :
    encode_SFLOAT_ieee11073 250 1 = .error (.assertionError "Mantissa too big") ∧
    encode_SFLOAT_ieee11073 (183 / 5) 1 = .ok [110, 17] := by
  have h2500 : truncInt ((250 : ℚ) * (10 : ℚ) ^ (1 : Int)) = 2500 := by
    unfold truncInt
    rw [show ((250 : ℚ) * (10 : ℚ) ^ (1 : Int)) = ((2500 : Int) : ℚ) from by norm_num]
    rw [if_pos (by norm_num)]
    exact Int.floor_intCast 2500
  have h366 : truncInt ((183 / 5 : ℚ) * (10 : ℚ) ^ (1 : Int)) = 366 := by
    unfold truncInt
    rw [show ((183 / 5 : ℚ) * (10 : ℚ) ^ (1 : Int)) = ((366 : Int) : ℚ) from by norm_num]
    rw [if_pos (by norm_num)]
    exact Int.floor_intCast 366
  constructor
  · exact (c6_amended 250 1).1.mpr (by rw [h2500]; norm_num)
  · have htc : twos_comp (366 : Int) 12 = 366 := by
      rw [twos_comp_eq_emod]
      norm_num
    have h := (c6_amended (183 / 5) 1).2 4462 (by rw [h366, htc]; norm_num)
      (by rw [h366]; norm_num) (by norm_num) (by norm_num)
    norm_num at h
    exact h

/-! ## Claim C3 -/

/-- Monad-reduction helper: binding a success. -/
theorem exceptBind_ok {ε α β : Type} (a : α) (f : α → Except ε β) :
    (Except.ok a >>= f) = f a := rfl

/-- Monad-reduction helper: binding a failure. -/
theorem exceptBind_error {ε α β : Type} (e : ε) (f : α → Except ε β) :
    ((Except.error e : Except ε α) >>= f) = Except.error e := rfl

/-- With a `Requires` dict in hand (`_REQS.values()` = `rv`), the
selection loop never raises and picks exactly the non-`Flags` fields
that are `Mandatory`, or all of whose requirement tags (vacuously, an
empty list) are in `rv`. -/
theorem selectFields_some_eq (rv : List (Option String)) :
    ∀ flds : List (String × FieldDef),
      selectFields (some rv) flds =
        .ok ((flds.filter (fun p => decide (p.1 ≠ "Flags") &&
          (decide ("Mandatory" ∈ _get_req p.2) ||
            (_get_req p.2).all (fun r => rv.contains (some r))))).map Prod.fst)
  | [] => rfl
  | (name, fd) :: rest => by
    have ih := selectFields_some_eq rv rest
    by_cases hf : name = "Flags"
    · subst hf
      show selectFields (some rv) (("Flags", fd) :: rest) = _
      unfold selectFields
      rw [if_pos rfl, ih]
      simp [List.filter_cons]
    · by_cases hman : "Mandatory" ∈ _get_req fd
      · show selectFields (some rv) ((name, fd) :: rest) = _
        unfold selectFields
        rw [if_neg hf, if_pos hman, ih, exceptBind_ok]
        simp [List.filter_cons, hf, hman]
      · rcases hreq : _get_req fd with _ | ⟨r, rs⟩
        · show selectFields (some rv) ((name, fd) :: rest) = _
          unfold selectFields
          rw [if_neg hf, if_neg hman, hreq, ih, exceptBind_ok]
          simp [List.filter_cons, hf, hman, hreq]
        · show selectFields (some rv) ((name, fd) :: rest) = _
          unfold selectFields
          rw [if_neg hf, if_neg hman, hreq]
          simp only []
          by_cases hall : ((r :: rs).all fun x => rv.contains (some x)) = true
          · rw [if_pos hall, ih, exceptBind_ok]
            have hall' : some r ∈ rv ∧ ∀ x ∈ rs, some x ∈ rv := by
              simpa using hall
            simp [List.filter_cons, hf, hman, hreq, hall'.1]
            rw [if_pos (Or.inr hall'.2)]
            simp
          · rw [if_neg hall, ih]
            have hman' : ¬("Mandatory" = r ∨ "Mandatory" ∈ rs) := by
              rw [hreq] at hman
              simpa using hman
            have hall' : ¬(some r ∈ rv ∧ ∀ x ∈ rs, some x ∈ rv) := by
              intro hc
              exact hall (by simpa using hc)
            simp [List.filter_cons, hf, hreq, hman', hall']

/-- The Flags bit used by the concrete selection characteristics:
bit 0, one bit wide, whose set state requires tag `"T"`. -/
def bitT : BitDef :=
  { index := 0, size := 1, enums := [("0", "False"), ("1", "True")],
    requiresMap := some [("1", "T")] }

/-- A three-field characteristic: 1-bit `Flags`, a `Mandatory` field
`A`, and a field `C` with an empty requirement list. -/
def charC3 : CHAR_XML :=
  ⟨[("Flags", { ctype := some "B", bitfield := some [("bit0", bitT)] }),
    ("A", { ctype := some "B", requirements := ["Mandatory"] }),
    ("C", { ctype := some "B" })]⟩

/-- C3 counterexample: field `C` carries an empty requirement-tag list
(neither `"Mandatory"` nor any tag), yet the selection loop includes it
(`all` of an empty comprehension is `True`), contradicting the claim
that such a field is excluded. -/
theorem c3_counterexample :
    _get_req ({ ctype := some "B" } : FieldDef) = [] ∧
    selectFields (some [some "T"]) charC3.fields = .ok ["A", "C"] := by
  exact ⟨rfl, rfl⟩

/-- C3 (amended): in multi-field selection with a decoded Flags value,
a non-Flags field is included if any of its requirement tags equals
`"Mandatory"`, and otherwise iff all of its tags are in the
satisfied-requirement-tag set — vacuously including every field whose
requirement-tag list is empty (rather than excluding it). -/
theorem c3_amended_selection_rule (rv : List (Option String))
    (flds : List (String × FieldDef)) :
    selectFields (some rv) flds =
      .ok ((flds.filter (fun p => decide (p.1 ≠ "Flags") &&
        (decide ("Mandatory" ∈ _get_req p.2) ||
          (_get_req p.2).all (fun r => rv.contains (some r))))).map Prod.fst) :=
  selectFields_some_eq rv flds

/-! ## Claim C10 -/

/-- With `_REQS = None`, any non-Flags field whose requirement list is
non-empty and lacks `"Mandatory"` makes the selection loop evaluate
`_REQS.values()` and raise `AttributeError`. -/
theorem selectFields_none_attributeError :
    ∀ flds : List (String × FieldDef),
      (∃ p ∈ flds, p.1 ≠ "Flags" ∧ _get_req p.2 ≠ [] ∧ "Mandatory" ∉ _get_req p.2) →
      selectFields Option.none flds = .error .attributeError
  | [], h => absurd h (by simp)
  | (name, fd) :: rest, h => by
    show selectFields Option.none ((name, fd) :: rest) = _
    unfold selectFields
    by_cases hf : name = "Flags"
    · rw [if_pos hf]
      apply selectFields_none_attributeError rest
      rcases h with ⟨p, hp, h1, h2, h3⟩
      rcases List.mem_cons.mp hp with heq | hp'
      · exact absurd hf (by rw [heq] at h1; exact h1)
      · exact ⟨p, hp', h1, h2, h3⟩
    · rw [if_neg hf]
      by_cases hman : "Mandatory" ∈ _get_req fd
      · rw [if_pos hman]
        have hrest : ∃ p ∈ rest, p.1 ≠ "Flags" ∧ _get_req p.2 ≠ [] ∧
            "Mandatory" ∉ _get_req p.2 := by
          rcases h with ⟨p, hp, h1, h2, h3⟩
          rcases List.mem_cons.mp hp with heq | hp'
          · exact absurd hman (by rw [heq] at h3; exact h3)
          · exact ⟨p, hp', h1, h2, h3⟩
        rw [selectFields_none_attributeError rest hrest, exceptBind_error]
      · rw [if_neg hman]
        rcases hreq : _get_req fd with _ | ⟨r, rs⟩
        · simp only []
          have hrest : ∃ p ∈ rest, p.1 ≠ "Flags" ∧ _get_req p.2 ≠ [] ∧
              "Mandatory" ∉ _get_req p.2 := by
            rcases h with ⟨p, hp, h1, h2, h3⟩
            rcases List.mem_cons.mp hp with heq | hp'
            · exact absurd hreq (by rw [heq] at h2; exact h2)
            · exact ⟨p, hp', h1, h2, h3⟩
          rw [selectFields_none_attributeError rest hrest, exceptBind_error]
        · rfl

/-- With `_REQS = None` but every field `Mandatory` or requirement-free,
the selection loop completes and includes every non-Flags field. -/
theorem selectFields_none_all_included :
    ∀ flds : List (String × FieldDef),
      (∀ p ∈ flds, _get_req p.2 = [] ∨ "Mandatory" ∈ _get_req p.2) →
      selectFields Option.none flds =
        .ok ((flds.filter (fun p => decide (p.1 ≠ "Flags"))).map Prod.fst)
  | [], _ => rfl
  | (name, fd) :: rest, h => by
    have ih := selectFields_none_all_included rest
      (fun p hp => h p (List.mem_cons_of_mem _ hp))
    show selectFields Option.none ((name, fd) :: rest) = _
    unfold selectFields
    by_cases hf : name = "Flags"
    · rw [if_pos hf, ih]
      simp [List.filter_cons, hf]
    · rw [if_neg hf]
      by_cases hman : "Mandatory" ∈ _get_req fd
      · rw [if_pos hman, ih, exceptBind_ok]
        simp [List.filter_cons, hf]
      · rcases hreq : _get_req fd with _ | ⟨r, rs⟩
        · rw [if_neg (List.not_mem_nil "Mandatory")]
          simp only []
          rw [ih, exceptBind_ok]
          simp [List.filter_cons, hf]
        · rcases h (name, fd) (List.mem_cons_self _ _) with h0 | h0
          · rw [h0] at hreq
            exact List.noConfusion hreq
          · exact absurd h0 hman

/-- When the fields dict has no `Flags` key at all, the Flags-probing
prologue leaves `_FLAGS` and `_REQS` as `None`. -/
theorem flagsStep_no_flags (char : CHAR_XML) (val : List Nat)
    (hf : lookupStr char.fields "Flags" = Option.none) :
    flagsStep char val = .ok Option.none := by
  unfold flagsStep
  rw [hf]

/-- The `Flags`-with-empty-`BitField` characteristic showing the
empty-label-set sub-case of C10. -/
def charEmptyFlagsBF : CHAR_XML :=
  ⟨[("Flags", { ctype := some "B", bitfield := some [] }),
    ("A", { ctype := some "B", requirements := ["Mandatory"] }),
    ("B", { ctype := some "B", requirements := ["T"] })]⟩

/-- C10 counterexample: when `Flags` exists but its label set decodes
empty, `_REQS` is an empty dict, not `None`: field `B` (requirement
`"T"`, not `Mandatory`) does not raise `AttributeError` as the claim
states — it is merely excluded, and the call returns `A`'s value. -/
theorem c10_counterexample :
    flagsStep charEmptyFlagsBF [0] = .ok (some ("B", [], [])) ∧
    _get_multiple_fields (fun _ => Option.none) charEmptyFlagsBF [0] false =
      .ok (.dict [("A", .dict [("Value", .int 0)])]) := by
  exact ⟨rfl, rfl⟩

/-- C10 (amended): when no `Flags` field is present in the dict, the
satisfied-requirement set is `None`: any non-Flags field with a
non-empty requirement list lacking `"Mandatory"` makes the whole call
raise `AttributeError`, while a characteristic whose every field is
requirement-free or `Mandatory` selects all non-Flags fields (empty
lists vacuously included).  (When `Flags` is present but decodes to an
empty label set, `_REQS` is an empty dict instead and no
`AttributeError` occurs — see the counterexample.) -/
theorem c10_amended_no_flags (env : String → Option CHAR_XML) (char : CHAR_XML)
    (val : List Nat) (rtn : Bool)
    (hf : lookupStr char.fields "Flags" = Option.none) :
    ((∃ p ∈ char.fields, p.1 ≠ "Flags" ∧ _get_req p.2 ≠ [] ∧
        "Mandatory" ∉ _get_req p.2) →
      _get_multiple_fields env char val rtn = .error .attributeError)
    ∧ ((∀ p ∈ char.fields, _get_req p.2 = [] ∨ "Mandatory" ∈ _get_req p.2) →
      selectFields Option.none char.fields =
        .ok ((char.fields.filter (fun p => decide (p.1 ≠ "Flags"))).map Prod.fst)) := by
  constructor
  · intro hbad
    unfold _get_multiple_fields
    rw [flagsStep_no_flags char val hf, exceptBind_ok]
    simp only []
    unfold noFlagsBranch
    rw [selectFields_none_attributeError char.fields hbad, exceptBind_error]
  · intro hgood
    exact selectFields_none_all_included char.fields hgood

/-- A no-Flags characteristic whose fields are Mandatory or
requirement-free, for the C10 witness's inclusion half. -/
def charMandFree : CHAR_XML :=
  ⟨[("A", { ctype := some "B", requirements := ["Mandatory"] }),
    ("C", { ctype := some "B" })]⟩

/-- The no-Flags two-field characteristic used by the C10 witness. -/
def charNoFlags : CHAR_XML :=
  ⟨[("A", { ctype := some "B", requirements := ["Mandatory"] }),
    ("B", { ctype := some "B", requirements := ["T"] })]⟩

/-- C10 amended-theorem witness: on the no-Flags characteristic whose
field `B` requires tag `"T"`, the decode raises `AttributeError`; and
on a no-Flags characteristic whose fields are Mandatory or
requirement-free, the `None`-requirement selection includes both. -/
theorem c10_amended_witness :
    _get_multiple_fields (fun _ => Option.none) charNoFlags [0, 1] false =
      .error .attributeError ∧
    selectFields Option.none charMandFree.fields = .ok ["A", "C"] := by
  constructor
  · exact (c10_amended_no_flags (fun _ => Option.none) charNoFlags [0, 1] false rfl).1
      ⟨("B", { ctype := some "B", requirements := ["T"] }), by decide, by decide,
        by decide, by decide⟩
  · exact (c10_amended_no_flags (fun _ => Option.none) charMandFree [] false rfl).2
      (by decide)

/-! ## Claim C2 -/

/-- C2: in the Flags-present multi-field path — a decoded `_FLAGS` dict
that is non-empty and a non-empty `_FIELDS_TO_READ` — the call can
never return a decoded result: after reference expansion it invokes
the two-parameter `_complete_bytes` with a single argument and raises
`TypeError` before the final unpack (and if reference resolution
itself fails, that error aborts the call instead). -/
theorem c2_flags_path_unreachable (env : String → Option CHAR_XML)
    (char : CHAR_XML) (val : List Nat) (rtn : Bool) (cf : String)
    (fl : List (String × String)) (rq : List (String × Option String))
    (sel : List String)
    (h1 : flagsStep char val = .ok (some (cf, fl, rq)))
    (h2 : fl ≠ [])
    (h3 : selectFields (some (rq.map Prod.snd)) char.fields = .ok sel)
    (h4 : sel ≠ []) :
    (∀ r, _get_multiple_fields env char val rtn ≠ .ok r) ∧
    (∀ st, expandFields env char cf sel = .ok st →
      _get_multiple_fields env char val rtn = .error .typeError) := by
  have hfl : fl.isEmpty = false := by
    cases fl with
    | nil => exact absurd rfl h2
    | cons a l => rfl
  have hsel : sel.isEmpty = false := by
    cases sel with
    | nil => exact absurd rfl h4
    | cons a l => rfl
  have hmain : _get_multiple_fields env char val rtn =
      (expandFields env char cf sel >>= fun _ =>
        _complete_bytes_call val >>= fun _ =>
          (.error .typeError : Except PyErr PyVal)) := by
    unfold _get_multiple_fields
    rw [h1, exceptBind_ok]
    simp only []
    rw [hfl, if_pos (show (!false) = true from rfl), h3, exceptBind_ok, hsel,
      if_neg (show ¬(false = true) from by simp)]
  constructor
  · intro r
    rw [hmain]
    cases hexp : expandFields env char cf sel with
    | error e =>
      rw [exceptBind_error]
      exact fun hc => Except.noConfusion hc
    | ok st =>
      rw [exceptBind_ok]
      exact fun hc => Except.noConfusion hc
  · intro st hst
    rw [hmain, hst, exceptBind_ok]
    rfl

/-- The two-payload-field characteristic of spec §8's testable
property: a 1-bit `Flags` whose set bit requires tag `"T"`, a
`Mandatory` field `A`, and a field `B` requiring `"T"` (all
`uint8`). -/
def charFlagsAB : CHAR_XML :=
  ⟨[("Flags", { ctype := some "B", bitfield := some [("bit0", bitT)] }),
    ("A", { ctype := some "B", requirements := ["Mandatory"] }),
    ("B", { ctype := some "B", requirements := ["T"] })]⟩

/-- C2 witness: on the concrete Flags+A+B characteristic with blob
`01 05 07`, the decode raises `TypeError`. -/
theorem c2_witness :
    _get_multiple_fields (fun _ => Option.none) charFlagsAB [1, 5, 7] false =
      .error .typeError := by
  exact (c2_flags_path_unreachable (fun _ => Option.none) charFlagsAB [1, 5, 7]
    false "B" [("bit0", "True")] [("bit0", some "T")] ["A", "B"]
    rfl (by decide) rfl (by decide)).2 ⟨"BBB", ["A", "B"], []⟩ rfl

/-! ## Claim C1 -/

/-- C1: the spec's testable property says that on the Flags+A+B
characteristic the blob `01 05 07` decodes to both `A` and `B` and the
blob `00 05` to `A` alone; the code instead raises `TypeError` on both
(the `_complete_bytes(val)` call passes one argument to the
two-parameter `_complete_bytes(self, bb)`), so the documented
behaviour is unreachable — a defect in the code, not in the claim. -/
theorem c1_flags_decode_raises_typeerror :
    get_char_value (fun _ => Option.none) [1, 5, 7] charFlagsAB false =
      .error .typeError ∧
    get_char_value (fun _ => Option.none) [0, 5] charFlagsAB false =
      .error .typeError := by
  exact ⟨rfl, rfl⟩

/-! ## Claim C7 -/

/-- A 1-bit sub-range whose enumeration only maps key `"0"`. -/
def bdMiss : BitDef := { index := 0, size := 1, enums := [("0", "off")] }

/-- The single-bitfield field built on `bdMiss`. -/
def fdBitMiss : FieldDef := { ctype := some "B", bitfield := some [("bit0", bdMiss)] }

/-- A single-field characteristic whose bitfield enumeration misses
key `"1"`. -/
def charBitMiss : CHAR_XML := ⟨[("F", fdBitMiss)]⟩

/-- C7 counterexample: a bitfield sub-range enumeration miss is NOT
recoverable — on the blob `[1]` (extracted key 1, absent from the
enumeration) the decode aborts with `KeyError` instead of carrying the
raw integer. -/
theorem c7_counterexample :
    get_char_value (fun _ => Option.none) [1] charBitMiss false = .error .keyError := by
  exact rfl

/-- C7 (amended): an ordinary field-enumeration miss is recoverable —
the decode continues and the result carries the raw decoded integer
(scaled as usual) — but a bitfield sub-range enumeration miss raises
`KeyError` through the bare `keymap[key_str]` of `_autobitmask` and
aborts the decode (only `Requires` lookups fall back, to `False`). -/
theorem c7_amended_enum_miss :
    (∀ (name : String) (fd : FieldDef) (ct : String) (val : List Nat) (d : Int)
        (km : List (String × String)),
      fd.ctype = some ct → fd.bitfield = Option.none → fd.enums = some km →
      km ≠ [] → structUnpack ct val = .ok [.int d] →
      lookupStr km (toString d) = Option.none →
      _get_single_field ⟨[(name, fd)]⟩ val =
        .ok (.dict [(name, .dict (formatOne fd (.int d)))])) ∧
    (∀ (name bitname : String) (fd : FieldDef) (ct : String) (bd : BitDef)
        (val : List Nat) (d : Int),
      fd.ctype = some ct → fd.bitfield = some [(bitname, bd)] →
      structUnpack ct val = .ok [.int d] →
      lookupStr bd.enums
        (toString ((Int.land d ((2 ^ bd.size - 1) * 2 ^ bd.index)) >>> bd.index)) =
        Option.none →
      _get_single_field ⟨[(name, fd)]⟩ val = .error .keyError) := by
  constructor
  · intro name fd ct val d km hct hbf hen hkm hunp hmiss
    have hfind : findCtypeField [(name, fd)] = some (name, fd, ct) := by
      unfold findCtypeField
      rw [hct]
    have hkm' : km.isEmpty = false := by
      cases km with
      | nil => exact absurd rfl hkm
      | cons a l => rfl
    unfold _get_single_field
    rw [hfind]
    simp only []
    rw [hbf]
    simp only []
    rw [hen]
    simp only []
    rw [hkm', if_pos (show (!false) = true from rfl), hunp, exceptBind_ok]
    simp only []
    rw [exceptBind_ok]
    simp only [pyStr]
    rw [hmiss]
  · intro name bitname fd ct bd val d hct hbf hunp hmiss
    have hfind : findCtypeField [(name, fd)] = some (name, fd, ct) := by
      unfold findCtypeField
      rw [hct]
    unfold _get_single_field
    rw [hfind]
    simp only []
    rw [hbf]
    simp only []
    rw [hunp, exceptBind_ok]
    simp only []
    simp only [pyToInt]
    rw [exceptBind_ok]
    unfold _autoformat autoformatFields
    rw [hct]
    simp only [Option.isSome_some, if_true]
    rw [hbf]
    simp only []
    unfold autoformatBits _autobitmask
    simp only [hmiss]
    rfl

/-- An ordinary enumerated `uint8` field with a ×2 multiplier, whose
map only covers key `"0"`. -/
def fdOrdEnum : FieldDef :=
  { ctype := some "B", enums := some [("0", "zero")], multiplier := some 2 }

/-- C7 amended-theorem witness: the ordinary-enumeration miss on blob
`[5]` falls back to the raw value 5 (scaled to 10), while the bitfield
miss on `[1]` aborts with `KeyError`. -/
theorem c7_amended_witness :
    _get_single_field ⟨[("F", fdOrdEnum)]⟩ [5] =
      .ok (.dict [("F", .dict [("Value", .int 10)])]) ∧
    _get_single_field charBitMiss [1] = .error .keyError := by
  exact ⟨c7_amended_enum_miss.1 "F" fdOrdEnum "B" [5] 5 [("0", "zero")]
      rfl rfl rfl (by decide) rfl rfl,
    c7_amended_enum_miss.2 "F" "bit0" fdBitMiss "B" bdMiss [1] 1 rfl rfl rfl rfl⟩

/-! ## Claim C8 -/

/-- A field's contribution to the composite unpack format: its own
`Ctype` if declared, nothing otherwise. -/
def fmtOfField (fd : FieldDef) : String :=
  match fd.ctype with
  | some c => c
  | Option.none => ""

/-- The composite format contributed by a run of fields (each looked up
in the characteristic), in order. -/
def ctypesOf (char : CHAR_XML) : List String → String
  | [] => ""
  | f :: rest =>
    (match lookupStr char.fields f with
     | some fd => fmtOfField fd
     | Option.none => "") ++ ctypesOf char rest

/-- `findIdx?` locates the first occurrence of `rname` right after a
prefix that avoids it. -/
theorem findIdx?_not_mem_append (rname : String) (post : List String) :
    ∀ (pre : List String) (i : Nat), rname ∉ pre →
      List.findIdx? (· = rname) (pre ++ rname :: post) i = some (pre.length + i)
  | [], i, _ => by
    rw [List.nil_append, List.findIdx?_cons]
    simp
  | p :: pre', i, h => by
    have hne : p ≠ rname := fun hh => h (hh ▸ List.mem_cons_self p pre')
    have hrest : rname ∉ pre' := fun hh => h (List.mem_cons_of_mem p hh)
    rw [List.cons_append, List.findIdx?_cons, if_neg (by simp [hne]),
      findIdx?_not_mem_append rname post pre' (i + 1) hrest]
    congr 1
    simp
    omega

/-- Appending fresh keys with `dictUpdate` just concatenates. -/
theorem dictUpdate_foldl_append {α : Type} :
    ∀ (l acc : List (String × α)),
      (l.map Prod.fst).Nodup →
      (∀ k ∈ l.map Prod.fst, lookupStr acc k = Option.none) →
      l.foldl (fun a p => dictUpdate a p.1 p.2) acc = acc ++ l
  | [], acc, _, _ => by simp
  | (n, v) :: rest, acc, hnd, hdisj => by
    have hnone : lookupStr acc n = Option.none := hdisj n (by simp)
    have hfind : acc.find? (fun p => p.1 == n) = Option.none := by
      unfold lookupStr at hnone
      exact Option.map_eq_none'.mp hnone
    have hupd : dictUpdate acc n v = acc ++ [(n, v)] := by
      unfold dictUpdate
      rw [hfind]
      simp
    have hnd' : (rest.map Prod.fst).Nodup := by
      rw [List.map_cons, List.nodup_cons] at hnd
      exact hnd.2
    have hnmem : n ∉ rest.map Prod.fst := by
      rw [List.map_cons, List.nodup_cons] at hnd
      exact hnd.1
    have hdisj' : ∀ k ∈ rest.map Prod.fst, lookupStr (acc ++ [(n, v)]) k = Option.none := by
      intro k hk
      have hk1 : lookupStr acc k = Option.none := hdisj k (List.mem_cons_of_mem _ hk)
      have hk2 : acc.find? (fun p => p.1 == k) = Option.none := by
        unfold lookupStr at hk1
        exact Option.map_eq_none'.mp hk1
      have hkn : (n == k) = false := beq_eq_false_iff_ne.mpr (fun hh => hnmem (hh ▸ hk))
      unfold lookupStr
      rw [List.find?_append, hk2]
      rw [List.find?_cons_of_neg _ (by simp [hkn])]
      rfl
    rw [List.foldl_cons, hupd,
      dictUpdate_foldl_append rest (acc ++ [(n, v)]) hnd' hdisj']
    simp

/-- Reference-free expansion steps only grow the format string. -/
theorem expandStep_noref (env : String → Option CHAR_XML) (char : CHAR_XML)
    (st : ExpandResult) (f : String) (fd : FieldDef)
    (hlk : lookupStr char.fields f = some fd) (href : fd.reference = Option.none) :
    expandStep env char st f =
      .ok ⟨st.ctype_global ++ fmtOfField fd, st.fieldsToRead, st.referenceFields⟩ := by
  unfold expandStep
  rw [hlk]
  simp only []
  rw [href]
  cases hc : fd.ctype with
  | none =>
    simp only [hc, fmtOfField]
    rw [String.append_empty]
  | some c =>
    simp only [hc, fmtOfField]

/-- Folding the expansion over a run of reference-free fields appends
exactly their `Ctype`s and leaves the selection and the reference dict
unchanged. -/
theorem expandFields_go_noref (env : String → Option CHAR_XML) (char : CHAR_XML) :
    ∀ (names : List String) (st : ExpandResult),
      (∀ f ∈ names, ∃ fd, lookupStr char.fields f = some fd ∧
        fd.reference = Option.none) →
      List.foldlM (expandStep env char) st names =
        .ok ⟨st.ctype_global ++ ctypesOf char names, st.fieldsToRead, st.referenceFields⟩
  | [], st, _ => by
    rw [List.foldlM_nil]
    show Except.ok st = _
    rw [show ctypesOf char [] = "" from rfl, String.append_empty]
  | f :: rest, st, h => by
    obtain ⟨fd, hlk, href⟩ := h f (by simp)
    rw [List.foldlM_cons, expandStep_noref env char st f fd hlk href, exceptBind_ok,
      expandFields_go_noref env char rest _
        (fun g hg => h g (List.mem_cons_of_mem _ hg))]
    show _ = Except.ok ⟨st.ctype_global ++ ctypesOf char (f :: rest), _, _⟩
    rw [show ctypesOf char (f :: rest) =
        (match lookupStr char.fields f with
         | some fd => fmtOfField fd
         | Option.none => "") ++ ctypesOf char rest from rfl, hlk]
    rw [String.append_assoc]

/-- Splicing a referenced characteristic: the referencing field `rname`
is replaced in place by the referenced fields (in their declared
order), the composite format gains the referenced `Ctype`s exactly at
that point, and the referenced definitions are recorded. -/
theorem expandFields_splice (env : String → Option CHAR_XML) (char : CHAR_XML)
    (fmt0 : String) (pre post : List String) (rname refname : String)
    (fdR : FieldDef) (xchar : CHAR_XML)
    (hpre : ∀ f ∈ pre, ∃ fd, lookupStr char.fields f = some fd ∧
      fd.reference = Option.none)
    (hpost : ∀ f ∈ post, ∃ fd, lookupStr char.fields f = some fd ∧
      fd.reference = Option.none)
    (hR : lookupStr char.fields rname = some fdR)
    (hRct : fdR.ctype = Option.none) (hRref : fdR.reference = some refname)
    (henv : env refname = some xchar)
    (hnotin : rname ∉ pre)
    (hnd : (xchar.fields.map Prod.fst).Nodup) :
    expandFields env char fmt0 (pre ++ rname :: post) =
      .ok ⟨fmt0 ++ ctypesOf char pre ++
            String.join (xchar.fields.filterMap (fun p => p.2.ctype)) ++
            ctypesOf char post,
           pre ++ xchar.fields.map Prod.fst ++ post,
           xchar.fields⟩ := by
  unfold expandFields
  rw [List.foldlM_append _ _ pre (rname :: post),
    expandFields_go_noref env char pre ⟨fmt0, pre ++ rname :: post, []⟩ hpre,
    exceptBind_ok, List.foldlM_cons]
  have hdrop : (pre ++ rname :: post).drop (pre.length + 1) = post := by
    rw [show pre ++ rname :: post = (pre ++ [rname]) ++ post from by simp,
      show pre.length + 1 = (pre ++ [rname]).length from by simp]
    exact List.drop_left _ _
  have hstep : expandStep env char ⟨fmt0 ++ ctypesOf char pre, pre ++ rname :: post, []⟩ rname =
      .ok ⟨fmt0 ++ ctypesOf char pre ++
            String.join (xchar.fields.filterMap (fun p => p.2.ctype)),
           pre ++ xchar.fields.map Prod.fst ++ post,
           xchar.fields⟩ := by
    unfold expandStep
    rw [hR]
    simp only []
    rw [hRct]
    simp only []
    rw [hRref]
    simp only []
    rw [henv]
    simp only []
    rw [dictUpdate_foldl_append xchar.fields [] hnd (fun k _ => rfl)]
    rw [findIdx?_not_mem_append rname post pre 0 hnotin]
    simp only []
    unfold spliceAt
    rw [Nat.add_zero, List.take_left, hdrop]
    rw [List.nil_append]
  rw [hstep, exceptBind_ok,
    expandFields_go_noref env char post _ hpost]

/-- The referenced characteristic `X` with two fields in declared
order. -/
def charRef (x1 x2 : String) (f1 f2 : FieldDef) : CHAR_XML :=
  ⟨[(x1, f1), (x2, f2)]⟩

/-- The lookup environment that resolves the name `"X"` to `charRef`. -/
def envRef (x1 x2 : String) (f1 f2 : FieldDef) : String → Option CHAR_XML :=
  fun n => if n = "X" then some (charRef x1 x2 f1 f2) else Option.none

/-- The including characteristic: a `Mandatory` `uint8` field `A` and
a pure `Reference` field `R` (no `Ctype` of its own) pointing at
`"X"`. -/
def charWithRef : CHAR_XML :=
  ⟨[("A", { ctype := some "B", requirements := ["Mandatory"] }),
    ("R", { reference := some "X" })]⟩

/-- Decoding through a `Reference`: the spliced fields decode with the
referenced definition's own metadata (units and scaling from `f1`/`f2`,
not from `charWithRef`). -/
theorem get_multiple_fields_reference (x1 x2 : String) (f1 f2 : FieldDef)
    (a v1 v2 : Nat)
    (hx12 : x1 ≠ x2) (hx1A : x1 ≠ "A") (hx1R : x1 ≠ "R")
    (hx2A : x2 ≠ "A") (hx2R : x2 ≠ "R")
    (hf1 : f1.ctype = some "B") (hf2 : f2.ctype = some "B") :
    _get_multiple_fields (envRef x1 x2 f1 f2) charWithRef [a, v1, v2] false =
      .ok (.dict [("A", .dict [("Value", .int (a : Int))]),
        (x1, .dict (formatOne f1 (.int (v1 : Int)))),
        (x2, .dict (formatOne f2 (.int (v2 : Int))))]) := by
  have e12 : (x1 == x2) = false := beq_eq_false_iff_ne.mpr hx12
  have eA1 : ("A" == x1) = false := beq_eq_false_iff_ne.mpr (Ne.symm hx1A)
  have eA2 : ("A" == x2) = false := beq_eq_false_iff_ne.mpr (Ne.symm hx2A)
  have eR1 : ("R" == x1) = false := beq_eq_false_iff_ne.mpr (Ne.symm hx1R)
  have eR2 : ("R" == x2) = false := beq_eq_false_iff_ne.mpr (Ne.symm hx2R)
  have h1 : flagsStep charWithRef [a, v1, v2] = .ok Option.none := rfl
  have hstepA : expandStep (envRef x1 x2 f1 f2) charWithRef ⟨"", ["A", "R"], []⟩ "A" =
      .ok ⟨"B", ["A", "R"], []⟩ := rfl
  have hrefF : (charRef x1 x2 f1 f2).fields.foldl
      (fun acc p => dictUpdate acc p.1 p.2) ([] : List (String × FieldDef)) =
      [(x1, f1), (x2, f2)] := by
    refine dictUpdate_foldl_append (charRef x1 x2 f1 f2).fields [] ?_ (fun k _ => rfl)
    simp [charRef, hx12]
  have hfmt : ("B" ++ String.join
      (List.filterMap (fun p => p.2.ctype) (charRef x1 x2 f1 f2).fields)) = "BBB" := by
    show ("B" ++ String.join (List.filterMap (fun p => p.2.ctype) [(x1, f1), (x2, f2)])) = "BBB"
    rw [List.filterMap_cons, List.filterMap_cons, List.filterMap_nil]
    simp only [hf1, hf2]
    rfl
  have hstepR : expandStep (envRef x1 x2 f1 f2) charWithRef ⟨"B", ["A", "R"], []⟩ "R" =
      .ok ⟨"BBB", ["A", x1, x2], [(x1, f1), (x2, f2)]⟩ := by
    unfold expandStep
    rw [show lookupStr charWithRef.fields "R" =
      some ({ reference := some "X" } : FieldDef) from rfl]
    simp only []
    rw [show envRef x1 x2 f1 f2 "X" = some (charRef x1 x2 f1 f2) from rfl]
    simp only []
    rw [hrefF]
    rw [show List.findIdx? (· = "R") ["A", "R"] = some 1 from rfl]
    simp only []
    rw [show (charRef x1 x2 f1 f2).fields.map Prod.fst = [x1, x2] from rfl]
    unfold spliceAt
    rw [hfmt]
    rfl
  have h3 : expandFields (envRef x1 x2 f1 f2) charWithRef "" ["A", "R"] =
      .ok ⟨"BBB", ["A", x1, x2], [(x1, f1), (x2, f2)]⟩ := by
    unfold expandFields
    rw [List.foldlM_cons, hstepA, exceptBind_ok, List.foldlM_cons, hstepR,
      exceptBind_ok, List.foldlM_nil]
    rfl
  have h4 : structUnpack "BBB" [a, v1, v2] =
      .ok [.int (a : Int), .int (v1 : Int), .int (v2 : Int)] := rfl
  have h5 : pyDictOfZip ["A", x1, x2] [.int (a : Int), .int (v1 : Int), .int (v2 : Int)] =
      [("A", .int (a : Int)), (x1, .int (v1 : Int)), (x2, .int (v2 : Int))] := by
    unfold pyDictOfZip
    rw [List.zip_cons_cons, List.zip_cons_cons, List.zip_cons_cons, List.zip_nil_left]
    rw [List.foldl_cons, List.foldl_cons, List.foldl_cons, List.foldl_nil]
    rw [show dictUpdate ([] : List (String × PyVal)) "A" (.int (a : Int)) =
      [("A", .int (a : Int))] from rfl]
    rw [show dictUpdate [("A", PyVal.int (a : Int))] x1 (.int (v1 : Int)) =
      [("A", PyVal.int (a : Int)), (x1, PyVal.int (v1 : Int))] from by
        unfold dictUpdate
        rw [List.find?_cons_of_neg _ (by simp [eA1]), List.find?_nil]
        simp]
    unfold dictUpdate
    rw [List.find?_cons_of_neg _ (by simp [eA2]),
      List.find?_cons_of_neg _ (by simp [e12]), List.find?_nil]
    simp
  have hfieldsC : charWithRef.fields =
      [("A", ({ ctype := some "B", requirements := ["Mandatory"] } : FieldDef)),
       ("R", { reference := some "X" })] := rfl
  have hlkx1c : lookupStr charWithRef.fields x1 = Option.none := by
    rw [hfieldsC]
    unfold lookupStr
    rw [List.find?_cons_of_neg _ (by simp [eA1]),
      List.find?_cons_of_neg _ (by simp [eR1]), List.find?_nil]
    rfl
  have hlkx2c : lookupStr charWithRef.fields x2 = Option.none := by
    rw [hfieldsC]
    unfold lookupStr
    rw [List.find?_cons_of_neg _ (by simp [eA2]),
      List.find?_cons_of_neg _ (by simp [eR2]), List.find?_nil]
    rfl
  have hlkx1r : lookupStr [(x1, f1), (x2, f2)] x1 = some f1 := by
    unfold lookupStr
    rw [List.find?_cons_of_pos _ (by simp)]
    rfl
  have hlkx2r : lookupStr [(x1, f1), (x2, f2)] x2 = some f2 := by
    unfold lookupStr
    rw [List.find?_cons_of_neg _ (by simp [e12]), List.find?_cons_of_pos _ (by simp)]
    rfl
  have hrawx1 : lookupStr [("A", PyVal.int (a : Int)), (x1, PyVal.int (v1 : Int)),
      (x2, PyVal.int (v2 : Int))] x1 = some (PyVal.int (v1 : Int)) := by
    unfold lookupStr
    rw [List.find?_cons_of_neg _ (by simp [eA1]), List.find?_cons_of_pos _ (by simp)]
    rfl
  have hrawx2 : lookupStr [("A", PyVal.int (a : Int)), (x1, PyVal.int (v1 : Int)),
      (x2, PyVal.int (v2 : Int))] x2 = some (PyVal.int (v2 : Int)) := by
    unfold lookupStr
    rw [List.find?_cons_of_neg _ (by simp [eA2]), List.find?_cons_of_neg _ (by simp [e12]),
      List.find?_cons_of_pos _ (by simp)]
    rfl
  have h6 : formatFieldsVals charWithRef [(x1, f1), (x2, f2)]
      [("A", PyVal.int (a : Int)), (x1, PyVal.int (v1 : Int)), (x2, PyVal.int (v2 : Int))]
      ["A", x1, x2] [] =
      .ok [("A", .dict [("Value", .int (a : Int))]),
        (x1, .dict (formatOne f1 (.int (v1 : Int)))),
        (x2, .dict (formatOne f2 (.int (v2 : Int))))] := by
    unfold formatFieldsVals
    rw [show lookupStr charWithRef.fields "A" =
      some ({ ctype := some "B", requirements := ["Mandatory"] } : FieldDef) from rfl]
    simp only []
    rw [show lookupStr [("A", PyVal.int (a : Int)), (x1, PyVal.int (v1 : Int)),
      (x2, PyVal.int (v2 : Int))] "A" = some (PyVal.int (a : Int)) from rfl]
    simp only []
    rw [exceptBind_ok, exceptBind_ok]
    unfold formatFieldsVals
    rw [hlkx1c]
    simp only []
    rw [show ([(x1, f1), (x2, f2)] : List (String × FieldDef)).isEmpty = false from rfl]
    simp only [Bool.false_eq_true, if_false]
    rw [hlkx1r]
    simp only []
    rw [hrawx1]
    simp only []
    rw [exceptBind_ok, exceptBind_ok]
    unfold formatFieldsVals
    rw [hlkx2c]
    simp only []
    rw [show ([(x1, f1), (x2, f2)] : List (String × FieldDef)).isEmpty = false from rfl]
    simp only [Bool.false_eq_true, if_false]
    rw [hlkx2r]
    simp only []
    rw [hrawx2]
    simp only []
    rw [exceptBind_ok, exceptBind_ok]
    unfold formatFieldsVals
    rw [show dictUpdate ([] : List (String × PyVal)) "A"
      (.dict (formatOne { ctype := some "B", requirements := ["Mandatory"] }
        (PyVal.int (a : Int)))) =
      [("A", .dict (formatOne { ctype := some "B", requirements := ["Mandatory"] }
        (PyVal.int (a : Int))))] from rfl]
    rw [show dictUpdate [("A", PyVal.dict (formatOne
        { ctype := some "B", requirements := ["Mandatory"] } (PyVal.int (a : Int))))]
        x1 (.dict (formatOne f1 (.int (v1 : Int)))) =
      [("A", PyVal.dict (formatOne { ctype := some "B", requirements := ["Mandatory"] }
        (PyVal.int (a : Int)))),
       (x1, PyVal.dict (formatOne f1 (.int (v1 : Int))))] from by
        unfold dictUpdate
        rw [List.find?_cons_of_neg _ (by simp [eA1]), List.find?_nil]
        simp]
    rw [show dictUpdate [("A", PyVal.dict (formatOne
        { ctype := some "B", requirements := ["Mandatory"] } (PyVal.int (a : Int)))),
        (x1, PyVal.dict (formatOne f1 (.int (v1 : Int))))]
        x2 (.dict (formatOne f2 (.int (v2 : Int)))) =
      [("A", PyVal.dict (formatOne { ctype := some "B", requirements := ["Mandatory"] }
        (PyVal.int (a : Int)))),
       (x1, PyVal.dict (formatOne f1 (.int (v1 : Int)))),
       (x2, PyVal.dict (formatOne f2 (.int (v2 : Int))))] from by
        unfold dictUpdate
        rw [List.find?_cons_of_neg _ (by simp [eA2]),
          List.find?_cons_of_neg _ (by simp [e12]), List.find?_nil]
        simp]
    rfl
  unfold _get_multiple_fields
  rw [h1, exceptBind_ok]
  simp only []
  unfold noFlagsBranch
  rw [show selectFields Option.none charWithRef.fields = .ok ["A", "R"] from rfl,
    exceptBind_ok]
  rw [if_neg (show ¬((["A", "R"] : List String).isEmpty = true) from by simp)]
  rw [h3, exceptBind_ok]
  simp only []
  rw [h4, exceptBind_ok, h5, h6, exceptBind_ok]
  rfl

/-- C8: an included field `R` carrying a `Reference` to definition `X`
is replaced in the selection by `X`'s fields in their declared order at
`R`'s former position (the rest unchanged), the composite format gains
exactly `X`'s fields' primitive codes there, and the decoded values of
the spliced fields carry `X`'s own scaling and unit metadata, not the
including definition's. -/
theorem c8_reference_splice_and_metadata :
    (∀ (env : String → Option CHAR_XML) (char : CHAR_XML) (fmt0 : String)
        (pre post : List String) (rname refname : String) (fdR : FieldDef)
        (xchar : CHAR_XML),
      (∀ f ∈ pre, ∃ fd, lookupStr char.fields f = some fd ∧
        fd.reference = Option.none) →
      (∀ f ∈ post, ∃ fd, lookupStr char.fields f = some fd ∧
        fd.reference = Option.none) →
      lookupStr char.fields rname = some fdR →
      fdR.ctype = Option.none → fdR.reference = some refname →
      env refname = some xchar →
      rname ∉ pre →
      (xchar.fields.map Prod.fst).Nodup →
      expandFields env char fmt0 (pre ++ rname :: post) =
        .ok ⟨fmt0 ++ ctypesOf char pre ++
              String.join (xchar.fields.filterMap (fun p => p.2.ctype)) ++
              ctypesOf char post,
             pre ++ xchar.fields.map Prod.fst ++ post,
             xchar.fields⟩) ∧
    (∀ (x1 x2 : String) (f1 f2 : FieldDef) (a v1 v2 : Nat),
      x1 ≠ x2 → x1 ≠ "A" → x1 ≠ "R" → x2 ≠ "A" → x2 ≠ "R" →
      f1.ctype = some "B" → f2.ctype = some "B" →
      _get_multiple_fields (envRef x1 x2 f1 f2) charWithRef [a, v1, v2] false =
        .ok (.dict [("A", .dict [("Value", .int (a : Int))]),
          (x1, .dict (formatOne f1 (.int (v1 : Int)))),
          (x2, .dict (formatOne f2 (.int (v2 : Int))))])) :=
  ⟨fun env char fmt0 pre post rname refname fdR xchar h1 h2 h3 h4 h5 h6 h7 h8 =>
      expandFields_splice env char fmt0 pre post rname refname fdR xchar
        h1 h2 h3 h4 h5 h6 h7 h8,
    fun x1 x2 f1 f2 a v1 v2 h1 h2 h3 h4 h5 h6 h7 =>
      get_multiple_fields_reference x1 x2 f1 f2 a v1 v2 h1 h2 h3 h4 h5 h6 h7⟩

/-- The first referenced field of the C8 witness: unit `"u1"` and a
×3 multiplier of its own. -/
def fX1 : FieldDef := { ctype := some "B", multiplier := some 3, unit := some "u1" }

/-- The second referenced field of the C8 witness: symbol `"s2"` and a
×5 multiplier of its own. -/
def fX2 : FieldDef := { ctype := some "B", multiplier := some 5, symbol := some "s2" }

/-- C8 witness: on the concrete `A` + `R`→`X`(`X1`, `X2`)
characteristic, expansion produces format `"BBB"` and selection
`[A, X1, X2]`, and the blob `[1, 2, 3]` decodes `X1`/`X2` with `X`'s
own metadata (unit `u1`, ×3; symbol `s2`, ×5). -/
theorem c8_witness :
    expandFields (envRef "X1" "X2" fX1 fX2) charWithRef "" ["A", "R"] =
      .ok ⟨"BBB", ["A", "X1", "X2"], [("X1", fX1), ("X2", fX2)]⟩ ∧
    _get_multiple_fields (envRef "X1" "X2" fX1 fX2) charWithRef [1, 2, 3] false =
      .ok (.dict [("A", .dict [("Value", .int 1)]),
        ("X1", .dict [("Unit", .str "u1"), ("Value", .int 6)]),
        ("X2", .dict [("Symbol", .str "s2"), ("Value", .int 15)])]) := by
  constructor
  · exact c8_reference_splice_and_metadata.1 (envRef "X1" "X2" fX1 fX2) charWithRef
      "" ["A"] [] "R" "X" ({ reference := some "X" }) (charRef "X1" "X2" fX1 fX2)
      (fun f hf => by
        simp only [List.mem_singleton] at hf
        subst hf
        exact ⟨_, rfl, rfl⟩)
      (fun f hf => absurd hf (List.not_mem_nil f))
      rfl rfl rfl rfl (by decide) (by decide)
  · exact c8_reference_splice_and_metadata.2 "X1" "X2" fX1 fX2 1 2 3
      (by decide) (by decide) (by decide) (by decide) (by decide) rfl rfl

end Bleak
